import Mathlib

/-!
The `rekord` version resolver and `BaseRekordType.UnmarshalEntry`.

A shallow embedding of `pkg/types/rekord/rekord.go`.

* The Go map `versionFactories` is a list of key/value pairs with distinct keys
  (`WellFormed`).  `range` over a Go map visits the entries in an unspecified
  order, so `Get` takes the visiting sequence `order` as an argument; it is a
  permutation of the stored entries (`IterationOf`).
* `github.com/blang/semver` is an external module.  The two functions the
  package calls, `semver.Parse` and `semver.ParseRange`, are the fields of
  `SemverLib`; the general theorems hold for every such library.  A `Range` is a
  Go function value: calling it yields a boolean or panics (the library builds
  ranges that call a nil function), and a panic inside `Get` leaves `Get` and
  `UnmarshalEntry` by panic.  `blang` is a concrete instance used to evaluate
  the code on concrete strings.
* The calls a function makes (range parsing, logging, `Get`, the factory call,
  the call of `Unmarshal`) are recorded in a ghost trace of `Event`s.
* `GetOn` and `UnmarshalEntryOn` are the same two functions in state-passing
  form, run on a table; the factory and `Unmarshal`, code of other packages that
  can call `Set`, hand on the table as `Callees` says.
* The `sync.RWMutex` is not modelled: the embedding is sequential.
-/

namespace rekord

/-! ## Values of the surrounding packages -/

/-- Go `error` value, identified by its text (`errors.New`, `fmt.Errorf`). -/
structure GoError where
  msg : String
  deriving DecidableEq, Repr

/-- The part of `github.com/blang/semver` used by the package: `Parse`
returns a `Version` or an error, `ParseRange` returns a `Range`
(`func(Version) bool`) or an error.  Calling the `Range` on a version returns a
boolean (`some b`) or panics (`none`). -/
structure SemverLib where
  Version : Type
  Parse : String → Except GoError Version
  ParseRange : String → Except GoError (Version → Option Bool)

/-- Source constant `KIND = "rekord"`. -/
def KIND : String := "rekord"

/-- Non-nil `*string`: the address held by the pointer and the string it points to. -/
structure StringPtr where
  addr : Nat
  val : String
  deriving DecidableEq, Repr

/-- `swag.StringValue`: the pointed-to string, or `""` for the nil pointer. -/
def StringValue : Option StringPtr → String
  | none => ""
  | some p => p.val

/-- What `fmt` prints for a `*string` under the verb `%v`: the address in
hexadecimal with the prefix `0x` (`<nil>` for the nil pointer), not the string. -/
def fmtPointer : Option StringPtr → String
  | none => "<nil>"
  | some p => "0x" ++ String.mk (Nat.toDigits 16 p.addr)

/-- Modelled from the spec: `models.Rekord` (package `pkg/generated/models`, not
among the sources): the envelope carrying the declared API version, a
`*string` since the code reads it through `swag.StringValue`, and an opaque
payload. -/
structure Rekord (P : Type) where
  APIVersion : Option StringPtr
  Spec : P

/-- Modelled from the spec: `models.ProposedEntry` (package
`pkg/generated/models`), an interface value.  Its dynamic type is either
`*models.Rekord` (`none` is the nil pointer of that type) or some other type,
tagged by its kind; the nil interface is an `other`. -/
inductive ProposedEntry (P : Type) where
  | Rekord (p : Option (Rekord P))
  | other (kind : String)

/-- Source type `VersionFactory = func() types.EntryImpl`.  A Go function value
may be nil (`none`); calling it yields an entry object or the nil interface
(`none`). -/
abbrev VersionFactory (E : Type) := Option (Unit → Option E)

/-- Ghost events: the calls made while a function of the package runs. -/
inductive Event where
  | logError (e : GoError)
  | parseRange (constraint : String)
  | get (version : String)
  | factoryCall
  | unmarshalCall
  deriving DecidableEq, Repr

/-! ## `versionFactoryMap` -/

/-- Source type `versionFactoryMap`: the field `versionFactories`. -/
structure versionFactoryMap (E : Type) where
  versionFactories : List (String × VersionFactory E)

/-- A Go map holds one value per key. -/
def WellFormed {E : Type} (vfm : versionFactoryMap E) : Prop :=
  (vfm.versionFactories.map Prod.fst).Nodup

/-- Map read `m[k]`. -/
def mapLookup {E : Type} (k : String) :
    List (String × VersionFactory E) → Option (VersionFactory E)
  | [] => none
  | (k', v) :: rest => if k' = k then some v else mapLookup k rest

/-- Map write `m[k] = v`: overwrite the value of an existing key, otherwise add the pair. -/
def mapStore {E : Type} (k : String) (v : VersionFactory E) :
    List (String × VersionFactory E) → List (String × VersionFactory E)
  | [] => [(k, v)]
  | (k', v') :: rest => if k' = k then (k, v) :: rest else (k', v') :: mapStore k v rest

/-- `order` is a sequence in which `range vfm.versionFactories` may visit the entries. -/
def IterationOf {E : Type} (vfm : versionFactoryMap E)
    (order : List (String × VersionFactory E)) : Prop :=
  order.Perm vfm.versionFactories

/-- How a call of `Get` ends and the events of the call.  When `panicked` is
`false` the call returned `(fn, found)`.  When `panicked` is `true` the call
returned nothing: the range call panicked, and `fn` and `found` are left at
`nil` and `false`. -/
structure GetResult (E : Type) where
  fn : VersionFactory E
  found : Bool
  trace : List Event
  panicked : Bool

/-- The `for k, v := range vfm.versionFactories` loop of `Get`, over the
visiting sequence. -/
def getLoop {E : Type} (L : SemverLib) (semverToMatch : L.Version) :
    List (String × VersionFactory E) → GetResult E
  | [] => ⟨none, false, [], false⟩
  | (k, v) :: rest =>
    match L.ParseRange k with
    | .error err => ⟨none, false, [.parseRange k, .logError err], false⟩
    | .ok semverRange =>
      match semverRange semverToMatch with
      | none => ⟨none, false, [.parseRange k], true⟩
      | some true => ⟨v, true, [.parseRange k], false⟩
      | some false =>
        let r := getLoop L semverToMatch rest
        ⟨r.fn, r.found, .parseRange k :: r.trace, r.panicked⟩

/-- Source function `versionFactoryMap.Get`, run with the visiting sequence `order`. -/
def Get {E : Type} (L : SemverLib) (order : List (String × VersionFactory E))
    (version : String) : GetResult E :=
  match L.Parse version with
  | .error err => ⟨none, false, [.logError err], false⟩
  | .ok semverToMatch => getLoop L semverToMatch order

/-- The table after `Set` and the events of the call. -/
structure SetResult (E : Type) where
  vfm : versionFactoryMap E
  trace : List Event

/-- Source function `versionFactoryMap.Set`. -/
def Set {E : Type} (L : SemverLib) (vfm : versionFactoryMap E) (constraint : String)
    (vf : VersionFactory E) : SetResult E :=
  match L.ParseRange constraint with
  | .error err => ⟨vfm, [.logError err]⟩
  | .ok _ => ⟨⟨mapStore constraint vf vfm.versionFactories⟩, []⟩

/-- Source variable `SemVerToFacFnMap` at initialisation: `make(map[string]VersionFactory)`. -/
def SemVerToFacFnMap (E : Type) : versionFactoryMap E := ⟨[]⟩

/-- The table after a sequence of `Set` calls on the empty table. -/
def setAll {E : Type} (L : SemverLib) (calls : List (String × VersionFactory E)) :
    versionFactoryMap E :=
  calls.foldl (fun m c => (Set L m c.1 c.2).vfm) (SemVerToFacFnMap E)

/-! ## `BaseRekordType.UnmarshalEntry` -/

/-- How a call ends: it returns `(types.EntryImpl, error)`, either of which may
be nil, or it panics. -/
inductive Outcome (E : Type) where
  | returned (entry : Option E) (err : Option GoError)
  | panicked

/-- Outcome and events of a call of `UnmarshalEntry`. -/
structure Run (E : Type) where
  outcome : Outcome E
  trace : List Event

/-- The error of the `!ok` branch. -/
def errNonRekord : GoError := ⟨"cannot unmarshal non-Rekord types"⟩

/-- The error built when the factory yields nil: `%v` is given the pointer
`rekord.APIVersion` itself. -/
def errGenerating (apiVersion : Option StringPtr) : GoError :=
  ⟨"failure generating Rekord object for version '" ++ fmtPointer apiVersion ++ "'"⟩

/-- The error built when `Get` finds nothing: `%v` is given
`swag.StringValue(rekord.APIVersion)`. -/
def errNotFound (version : String) : GoError :=
  ⟨"RekordType implementation for version '" ++ version ++ "' not found"⟩

/-- Source function `BaseRekordType.UnmarshalEntry`.  `unmarshal` is the method
`types.EntryImpl.Unmarshal`: it returns the error (nil is `none`) and the
object as the call left it.  `order` is the visiting sequence of the map
iteration inside `Get`.  A panic of `Get` is not recovered. -/
def UnmarshalEntry {E P : Type} (L : SemverLib)
    (unmarshal : E → Rekord P → Option GoError × E)
    (order : List (String × VersionFactory E)) (pe : ProposedEntry P) : Run E :=
  match pe with
  | .other _ => ⟨.returned none (some errNonRekord), []⟩
  | .Rekord none => ⟨.panicked, []⟩
  | .Rekord (some rekord) =>
    let version := StringValue rekord.APIVersion
    let g := Get L order version
    if g.panicked then ⟨.panicked, .get version :: g.trace⟩
    else if g.found then
      match g.fn with
      | none => ⟨.panicked, .get version :: g.trace ++ [.factoryCall]⟩
      | some genFn =>
        match genFn () with
        | none =>
          ⟨.returned none (some (errGenerating rekord.APIVersion)),
            .get version :: g.trace ++ [.factoryCall]⟩
        | some entry =>
          match unmarshal entry rekord with
          | (some err, _) =>
            ⟨.returned none (some err), .get version :: g.trace ++ [.factoryCall, .unmarshalCall]⟩
          | (none, entry') =>
            ⟨.returned (some entry') none,
              .get version :: g.trace ++ [.factoryCall, .unmarshalCall]⟩
    else ⟨.returned none (some (errNotFound version)), .get version :: g.trace⟩

/-! ## A concrete semantic-version library

`blang` follows `github.com/blang/semver` (release v3.5.1, the v3 API the
package imports): `Parse` reads `MAJOR.MINOR.PATCH[-prerelease][+build]`,
`ParseRange` reads comparator lists (`>=0.0.1 <0.0.2`, a blank is AND, `||` is
OR) after expanding wildcards (`1.x`).  A Go string is taken as its sequence of
code points, lengths are counted in bytes of the UTF-8 encoding, and the error
texts are descriptive. -/

namespace semver

/-- Library type `PRVersion`: a numeric or an alphanumeric prerelease identifier. -/
structure PRVersion where
  VersionStr : List Char
  VersionNum : Nat
  IsNum : Bool
  deriving DecidableEq, Repr

/-- Library type `Version`. -/
structure Version where
  Major : Nat
  Minor : Nat
  Patch : Nat
  Pre : List PRVersion
  Build : List (List Char)
  deriving DecidableEq, Repr

/-- `strings.Split(s, sep)` for a one-character separator. -/
def splitOn (sep : Char) : List Char → List (List Char)
  | [] => [[]]
  | c :: cs =>
    if c = sep then [] :: splitOn sep cs
    else
      match splitOn sep cs with
      | [] => [[c]]
      | w :: ws => (c :: w) :: ws

/-- Membership in the library constant `alphanum` (letters, digits and the hyphen). -/
def isAlphanum (c : Char) : Bool := c.isAlphanum || c = '-'

/-- Library function `hasLeadingZeroes`. -/
def hasLeadingZeroes : List Char → Bool
  | c :: _ :: _ => c = '0'
  | _ => false

/-- `strconv.ParseUint(s, 10, 64)` on a string of decimal digits: it fails on the
empty string and on a value that does not fit 64 bits. -/
def parseUint (s : List Char) : Option Nat :=
  if s = [] then none
  else
    let n := s.foldl (fun a c => 10 * a + (c.toNat - 48)) 0
    if n < 2 ^ 64 then some n else none

/-- The three checks `Parse` makes on each of the major, minor and patch numbers. -/
def parseNumber (what : String) (s : List Char) : Except GoError Nat :=
  if !s.all Char.isDigit then .error ⟨"Invalid character(s) found in " ++ what ++ " number"⟩
  else if hasLeadingZeroes s then
    .error ⟨what ++ " number must not contain leading zeroes"⟩
  else
    match parseUint s with
    | none => .error ⟨"strconv.ParseUint: parsing " ++ what ++ " number failed"⟩
    | some n => .ok n

/-- Library function `NewPRVersion`. -/
def NewPRVersion (s : List Char) : Except GoError PRVersion :=
  if s = [] then .error ⟨"Prerelease is empty"⟩
  else if s.all Char.isDigit then
    if hasLeadingZeroes s then .error ⟨"Numeric PreRelease version must not contain leading zeroes"⟩
    else
      match parseUint s with
      | none => .error ⟨"strconv.ParseUint: parsing prerelease failed"⟩
      | some n => .ok ⟨[], n, true⟩
  else if s.all isAlphanum then .ok ⟨s, 0, false⟩
  else .error ⟨"Invalid character(s) found in prerelease"⟩

/-- The loop of `Parse` over the prerelease identifiers. -/
def parsePre : List (List Char) → Except GoError (List PRVersion)
  | [] => .ok []
  | s :: rest =>
    match NewPRVersion s with
    | .error e => .error e
    | .ok p =>
      match parsePre rest with
      | .error e => .error e
      | .ok ps => .ok (p :: ps)

/-- The loop of `Parse` over the build identifiers. -/
def parseBuild : List (List Char) → Except GoError (List (List Char))
  | [] => .ok []
  | s :: rest =>
    if s = [] then .error ⟨"Build meta data is empty"⟩
    else if !s.all isAlphanum then .error ⟨"Invalid character(s) found in build meta data"⟩
    else
      match parseBuild rest with
      | .error e => .error e
      | .ok bs => .ok (s :: bs)

/-- The text after the first occurrence of `sep`, split at the dots; `[]` when
`sep` does not occur (the nil slice). -/
def identifiersAfter (sep : Char) (s : List Char) : List (List Char) :=
  match s.dropWhile (fun c => c != sep) with
  | [] => []
  | _ :: rest => splitOn '.' rest

/-- Library function `Parse`, on the characters of the string. -/
def parseChars (s : List Char) : Except GoError Version :=
  if s = [] then .error ⟨"Version string empty"⟩
  else
    let p0 := s.takeWhile (fun c => c != '.')
    match s.dropWhile (fun c => c != '.') with
    | [] => .error ⟨"No Major.Minor.Patch elements found"⟩
    | _ :: s1 =>
      let p1 := s1.takeWhile (fun c => c != '.')
      match s1.dropWhile (fun c => c != '.') with
      | [] => .error ⟨"No Major.Minor.Patch elements found"⟩
      | _ :: p2 =>
        match parseNumber "Major" p0 with
        | .error e => .error e
        | .ok major =>
          match parseNumber "Minor" p1 with
          | .error e => .error e
          | .ok minor =>
            let build := identifiersAfter '+' p2
            let patchStr := p2.takeWhile (fun c => c != '+')
            let prerelease := identifiersAfter '-' patchStr
            let patchStr := patchStr.takeWhile (fun c => c != '-')
            match parseNumber "Patch" patchStr with
            | .error e => .error e
            | .ok patch =>
              match parsePre prerelease with
              | .error e => .error e
              | .ok pre =>
                match parseBuild build with
                | .error e => .error e
                | .ok bld => .ok ⟨major, minor, patch, pre, bld⟩

/-- Library function `Parse`. -/
def Parse (s : String) : Except GoError Version := parseChars s.data

/-- Comparison of two Go strings of ASCII characters. -/
def compareChars : List Char → List Char → Ordering
  | [], [] => .eq
  | [], _ :: _ => .lt
  | _ :: _, [] => .gt
  | a :: as, b :: bs =>
    if a.toNat < b.toNat then .lt
    else if b.toNat < a.toNat then .gt
    else compareChars as bs

/-- Three-way comparison of two numbers. -/
def compareNat (a b : Nat) : Ordering :=
  if a < b then .lt else if b < a then .gt else .eq

/-- Library method `PRVersion.Compare`: a numeric identifier is below an alphanumeric one. -/
def PRVersion.Compare (v o : PRVersion) : Ordering :=
  if v.IsNum && !o.IsNum then .lt
  else if !v.IsNum && o.IsNum then .gt
  else if v.IsNum && o.IsNum then compareNat v.VersionNum o.VersionNum
  else compareChars v.VersionStr o.VersionStr

/-- The loop of `Version.Compare` over the prerelease identifiers and the length
test after it. -/
def comparePre : List PRVersion → List PRVersion → Ordering
  | [], [] => .eq
  | [], _ :: _ => .lt
  | _ :: _, [] => .gt
  | a :: as, b :: bs =>
    match a.Compare b with
    | .eq => comparePre as bs
    | o => o

/-- Library method `Version.Compare`: a version without prerelease is above the
same version with one; build meta data is ignored. -/
def Version.Compare (v o : Version) : Ordering :=
  if v.Major ≠ o.Major then compareNat v.Major o.Major
  else if v.Minor ≠ o.Minor then compareNat v.Minor o.Minor
  else if v.Patch ≠ o.Patch then compareNat v.Patch o.Patch
  else
    match v.Pre, o.Pre with
    | [], [] => .eq
    | [], _ :: _ => .gt
    | _ :: _, [] => .lt
    | a, b => comparePre a b

/-- Library function `parseComparator`: the test `c(v, o)` for each operator,
`none` for an unknown operator. -/
def parseComparator (op : List Char) : Option (Version → Version → Bool) :=
  if op = "==".data ∨ op = [] ∨ op = "=".data then some (fun v o => v.Compare o == .eq)
  else if op = ">".data then some (fun v o => v.Compare o == .gt)
  else if op = ">=".data then some (fun v o => v.Compare o != .lt)
  else if op = "<".data then some (fun v o => v.Compare o == .lt)
  else if op = "<=".data then some (fun v o => v.Compare o != .gt)
  else if op = "!".data ∨ op = "!=".data then some (fun v o => v.Compare o != .eq)
  else none


/-- The ranges of `unicode.IsDigit` (decimal digits, category Nd). -/
def digitRanges : List (Nat × Nat) :=
  [(0x30, 0x39), (0x660, 0x669), (0x6f0, 0x6f9), (0x7c0, 0x7c9), (0x966, 0x96f),
   (0x9e6, 0x9ef), (0xa66, 0xa6f), (0xae6, 0xaef), (0xb66, 0xb6f), (0xbe6, 0xbef),
   (0xc66, 0xc6f), (0xce6, 0xcef), (0xd66, 0xd6f), (0xde6, 0xdef), (0xe50, 0xe59),
   (0xed0, 0xed9), (0xf20, 0xf29), (0x1040, 0x1049), (0x1090, 0x1099), (0x17e0, 0x17e9),
   (0x1810, 0x1819), (0x1946, 0x194f), (0x19d0, 0x19d9), (0x1a80, 0x1a89),
   (0x1a90, 0x1a99), (0x1b50, 0x1b59), (0x1bb0, 0x1bb9), (0x1c40, 0x1c49),
   (0x1c50, 0x1c59), (0xa620, 0xa629), (0xa8d0, 0xa8d9), (0xa900, 0xa909),
   (0xa9d0, 0xa9d9), (0xa9f0, 0xa9f9), (0xaa50, 0xaa59), (0xabf0, 0xabf9),
   (0xff10, 0xff19), (0x104a0, 0x104a9), (0x10d30, 0x10d39), (0x11066, 0x1106f),
   (0x110f0, 0x110f9), (0x11136, 0x1113f), (0x111d0, 0x111d9), (0x112f0, 0x112f9),
   (0x11450, 0x11459), (0x114d0, 0x114d9), (0x11650, 0x11659), (0x116c0, 0x116c9),
   (0x11730, 0x11739), (0x118e0, 0x118e9), (0x11950, 0x11959), (0x11c50, 0x11c59),
   (0x11d50, 0x11d59), (0x11da0, 0x11da9), (0x16a60, 0x16a69), (0x16b50, 0x16b59),
   (0x1d7ce, 0x1d7ff), (0x1e140, 0x1e149), (0x1e2f0, 0x1e2f9), (0x1e950, 0x1e959),
   (0x1fbf0, 0x1fbf9)]

/-- `unicode.IsDigit`. -/
def isDigitRune (c : Char) : Bool :=
  digitRanges.any (fun r => r.1 ≤ c.toNat && c.toNat ≤ r.2)

/-- `unicode.IsSpace`. -/
def isSpaceRune (c : Char) : Bool :=
  let n := c.toNat
  (0x09 ≤ n && n ≤ 0x0d) || n = 0x20 || n = 0x85 || n = 0xa0 || n = 0x1680 ||
    (0x2000 ≤ n && n ≤ 0x200a) || n = 0x2028 || n = 0x2029 || n = 0x202f ||
    n = 0x205f || n = 0x3000

/-- `strings.TrimSpace`. -/
def TrimSpace (s : List Char) : List Char :=
  ((s.dropWhile isSpaceRune).reverse.dropWhile isSpaceRune).reverse

/-- Length of a Go string in bytes. -/
def byteLen (s : List Char) : Nat := (s.map Char.utf8Size).sum

/-- The scan of `splitAndTrim`.  `lastChar` is the last non-blank character read,
`piece` is the text since the last split, `s[last:i]`.  A blank splits unless it
follows `>`, `<` or `=`; a piece of fewer than two bytes is dropped. -/
def splitLoop : List Char → Char → List Char → List (List Char)
  | [], _, piece => if 2 ≤ byteLen piece then [piece] else []
  | c :: cs, lastChar, piece =>
    if c = ' ' ∧ lastChar ≠ '>' ∧ lastChar ≠ '<' ∧ lastChar ≠ '=' then
      if 2 ≤ byteLen piece then piece :: splitLoop cs lastChar []
      else splitLoop cs lastChar []
    else if c ≠ ' ' then splitLoop cs c (piece ++ [c])
    else splitLoop cs lastChar (piece ++ [c])

/-- Library function `splitAndTrim`: the pieces of the scan, with their blanks
removed. -/
def splitAndTrim (s : List Char) : List (List Char) :=
  (splitLoop s (Char.ofNat 0) []).map (fun w => w.filter (fun c => c != ' '))

/-- The groups of tokens between the `||` tokens. -/
def orGroups : List (List Char) → List (List (List Char))
  | [] => [[]]
  | p :: ps =>
    if p = "||".data then [] :: orGroups ps
    else
      match orGroups ps with
      | [] => [[p]]
      | g :: gs => (p :: g) :: gs

/-- Library function `splitORParts`: an error when the first or the last token is
`||` (or there is no token), otherwise the groups, of which an inner one is empty
when two `||` tokens are adjacent. -/
def splitORParts (parts : List (List Char)) : Except GoError (List (List (List Char))) :=
  if parts.head? = some "||".data then .error ⟨"First element in range is '||'"⟩
  else if (orGroups parts).getLast? = some [] then .error ⟨"Last element in range is '||'"⟩
  else .ok (orGroups parts)

/-- Library function `splitComparatorVersion`: the operator before the first
digit, trimmed, and the version from that digit on; `none` is the error. -/
def splitComparatorVersion (s : List Char) : Option (List Char × List Char) :=
  match s.dropWhile (fun c => !isDigitRune c) with
  | [] => none
  | vStr => some (TrimSpace (s.takeWhile (fun c => !isDigitRune c)), vStr)

/-- Library type `wildcardType`. -/
inductive wildcardType where
  | noneWildcard
  | majorWildcard
  | minorWildcard
  | patchWildcard
  deriving DecidableEq, Repr

/-- Library function `getWildcardType`. -/
def getWildcardType (vStr : List Char) : wildcardType :=
  let parts := splitOn '.' vStr
  if parts.getLast? = some "x".data then
    match parts.length with
    | 1 => .majorWildcard
    | 2 => .minorWildcard
    | 3 => .patchWildcard
    | _ => .noneWildcard
  else .noneWildcard

/-- `strings.Replace(s, old, new, 1)` for a non-empty `old`. -/
def replaceFirst (old new : List Char) : List Char → List Char
  | [] => []
  | c :: cs =>
    if old.isPrefixOf (c :: cs) then new ++ (c :: cs).drop old.length
    else c :: replaceFirst old new cs

/-- Library function `createVersionFromWildcard`. -/
def createVersionFromWildcard (vStr : List Char) : List Char :=
  let vStr2 := replaceFirst ".x.x".data ".x".data vStr
  let vStr2 := replaceFirst ".x".data ".0".data vStr2
  if (splitOn '.' vStr2).length = 2 then vStr2 ++ ".0".data else vStr2

/-- `strconv.Atoi` on a 64-bit platform: an optional sign and decimal digits,
within the range of `int`. -/
def Atoi (s : List Char) : Option Int :=
  let digits : List Char → Option Nat := fun d =>
    if d = [] ∨ !d.all Char.isDigit then none
    else some (d.foldl (fun a c => 10 * a + (c.toNat - 48)) 0)
  match s with
  | '-' :: r =>
    match digits r with
    | some n => if n ≤ 2 ^ 63 then some (-(n : Int)) else none
    | none => none
  | '+' :: r =>
    match digits r with
    | some n => if n < 2 ^ 63 then some (n : Int) else none
    | none => none
  | _ =>
    match digits s with
    | some n => if n < 2 ^ 63 then some (n : Int) else none
    | none => none

/-- `strconv.Itoa`. -/
def Itoa : Int → List Char
  | .ofNat n => Nat.toDigits 10 n
  | .negSucc n => '-' :: Nat.toDigits 10 (n + 1)

/-- `strings.Join(parts, ".")`. -/
def joinDots : List (List Char) → List Char
  | [] => []
  | [p] => p
  | p :: ps => p ++ '.' :: joinDots ps

/-- Library functions `incrementMajorVersion` (`idx = 0`) and
`incrementMinorVersion` (`idx = 1`): the number at position `idx` plus one, in
`int` arithmetic; the empty string when that part is not a number. -/
def incrementVersion (idx : Nat) (vStr : List Char) : List Char :=
  let parts := splitOn '.' vStr
  match Atoi (parts.getD idx []) with
  | none => []
  | some i =>
    let j : Int := if i + 1 = 2 ^ 63 then -(2 ^ 63) else i + 1
    joinDots (parts.set idx (Itoa j))

/-- What `expandWildcardVersion` puts in place of one token: the token itself
when it holds no `x`, otherwise the comparators that the wildcard stands for. -/
def expandPart (ap : List Char) : Except GoError (List (List Char)) :=
  if !ap.contains 'x' then .ok [ap]
  else
    match splitComparatorVersion ap with
    | none => .error ⟨"Could not get version from string"⟩
    | some (opStr, vStr) =>
      let versionWildcardType := getWildcardType vStr
      let flatVersion := createVersionFromWildcard vStr
      let incremented : List Char :=
        match versionWildcardType with
        | .patchWildcard => incrementVersion 1 flatVersion
        | .minorWildcard => incrementVersion 0 flatVersion
        | _ => []
      if opStr = ">".data then .ok [">=".data ++ incremented]
      else if opStr = ">=".data then .ok [">=".data ++ flatVersion]
      else if opStr = "<".data then .ok ["<".data ++ flatVersion]
      else if opStr = "<=".data then .ok ["<".data ++ incremented]
      else if opStr = [] ∨ opStr = "=".data ∨ opStr = "==".data then
        .ok [">=".data ++ flatVersion, "<".data ++ incremented]
      else if opStr = "!=".data ∨ opStr = "!".data then
        .ok ["<".data ++ flatVersion, ">=".data ++ incremented]
      else .ok [flatVersion]

/-- The inner loop of `expandWildcardVersion`, over the tokens of one group. -/
def expandGroup : List (List Char) → Except GoError (List (List Char))
  | [] => .ok []
  | ap :: rest =>
    match expandPart ap with
    | .error e => .error e
    | .ok new =>
      match expandGroup rest with
      | .error e => .error e
      | .ok more => .ok (new ++ more)

/-- Library function `expandWildcardVersion`. -/
def expandWildcardVersion :
    List (List (List Char)) → Except GoError (List (List (List Char)))
  | [] => .ok []
  | p :: rest =>
    match expandGroup p with
    | .error e => .error e
    | .ok newParts =>
      match expandWildcardVersion rest with
      | .error e => .error e
      | .ok more => .ok (newParts :: more)

/-- A non-nil value of the library type `Range`: called on a version it returns a
boolean or panics. -/
abbrev Range := Version → Option Bool

/-- The call `f(v)` of a `Range` variable that may hold nil: calling nil panics. -/
def callRange (f : Option Range) (v : Version) : Option Bool :=
  match f with
  | none => none
  | some g => g v

/-- Library method `Range.OR`: `rf(v) || f(v)`; `f` is called only when `rf(v)`
is false. -/
def Range.OR (rf : Range) (f : Option Range) : Range := fun v =>
  match rf v with
  | none => none
  | some true => some true
  | some false => callRange f v

/-- Library method `Range.AND`: `rf(v) && f(v)`; `f` is called only when `rf(v)`
is true. -/
def Range.AND (rf : Range) (f : Option Range) : Range := fun v =>
  match rf v with
  | none => none
  | some false => some false
  | some true => callRange f v

/-- Library functions `buildVersionRange` and `rangeFunc`: the range of one
operator and one version. -/
def buildVersionRange (opStr vStr : List Char) : Except GoError Range :=
  match parseComparator opStr with
  | none => .error ⟨"Could not parse comparator"⟩
  | some c =>
    match parseChars vStr with
    | .error e => .error ⟨"Could not parse version: " ++ e.msg⟩
    | .ok o => .ok (fun v => some (c v o))

/-- The inner loop of `ParseRange` over the comparators of one group; `andFn` is
nil before the first comparator. -/
def andLoop : List (List Char) → Option Range → Except GoError (Option Range)
  | [], andFn => .ok andFn
  | ap :: rest, andFn =>
    match splitComparatorVersion ap with
    | none => .error ⟨"Could not get version from string"⟩
    | some (opStr, vStr) =>
      match buildVersionRange opStr vStr with
      | .error e => .error ⟨"Could not parse Range: " ++ e.msg⟩
      | .ok rf =>
        match andFn with
        | none => andLoop rest (some rf)
        | some a => andLoop rest (some (a.AND (some rf)))

/-- The outer loop of `ParseRange` over the groups; `orFn` is nil before the
first group.  An empty group leaves `andFn` nil, and `orFn.OR(andFn)` is built
all the same. -/
def orLoop : List (List (List Char)) → Option Range → Except GoError (Option Range)
  | [], orFn => .ok orFn
  | p :: rest, orFn =>
    match andLoop p none with
    | .error e => .error e
    | .ok andFn =>
      match orFn with
      | none => orLoop rest andFn
      | some o => orLoop rest (some (o.OR andFn))

/-- Library function `ParseRange`. -/
def ParseRange (s : String) : Except GoError (Version → Option Bool) :=
  match splitORParts (splitAndTrim s.data) with
  | .error e => .error e
  | .ok orParts =>
    match expandWildcardVersion orParts with
    | .error e => .error e
    | .ok expandedParts =>
      match orLoop expandedParts none with
      | .error e => .error e
      | .ok orFn => .ok (callRange orFn)

end semver

/-- The library instance used for concrete evaluation. -/
def blang : SemverLib := ⟨semver.Version, semver.Parse, semver.ParseRange⟩

end rekord

namespace rekord

/-! ## Predicates used to state the properties -/

/-- The version string is accepted by `semver.Parse`. -/
def versionParses (L : SemverLib) (version : String) : Bool :=
  match L.Parse version with
  | .error _ => false
  | .ok _ => true

/-- The constraint string is accepted by `semver.ParseRange`. -/
def rangeParses (L : SemverLib) (constraint : String) : Bool :=
  match L.ParseRange constraint with
  | .error _ => false
  | .ok _ => true

/-- The version parses, the constraint parses as a range, and the range contains
the version: the range call returns `true`. -/
def inRange (L : SemverLib) (constraint version : String) : Bool :=
  match L.Parse version with
  | .error _ => false
  | .ok sv =>
    match L.ParseRange constraint with
    | .error _ => false
    | .ok semverRange =>
      match semverRange sv with
      | some b => b
      | none => false

/-- The version parses, the constraint parses as a range, and the call of the
range on the version panics. -/
def rangePanics (L : SemverLib) (constraint version : String) : Bool :=
  match L.Parse version with
  | .error _ => false
  | .ok sv =>
    match L.ParseRange constraint with
    | .error _ => false
    | .ok semverRange =>
      match semverRange sv with
      | some _ => false
      | none => true

/-- The results `Get(version)` can return on the table `vfm`: one for each
visiting sequence of the map iteration. -/
def GetReturns {E : Type} (L : SemverLib) (vfm : versionFactoryMap E) (version : String)
    (res : GetResult E) : Prop :=
  ∃ order, IterationOf vfm order ∧ Get L order version = res

/-- The text `sub` occurs in the text `s`. -/
def Includes (s sub : String) : Prop := sub.data <:+: s.data

instance (s sub : String) : Decidable (Includes s sub) := by
  unfold Includes; infer_instance

/-- Sample entry objects are texts; the sample `Unmarshal` fails on an object
named `bad` and otherwise appends the declared version to the object. -/
def sampleUnmarshal (e : String) (r : Rekord Unit) : Option GoError × String :=
  if e = "bad" then (some ⟨"decode failure"⟩, e)
  else (none, e ++ ":" ++ StringValue r.APIVersion)

/-- Sample factory `F1`. -/
def F1 : VersionFactory String := some (fun _ => some "F1")

/-- Sample factory `F2`. -/
def F2 : VersionFactory String := some (fun _ => some "F2")

/-- Sample factory that yields the nil entry. -/
def FNil : VersionFactory String := some (fun _ => none)

/-- Sample factory whose object fails to unmarshal. -/
def FBad : VersionFactory String := some (fun _ => some "bad")

/-- Sample Rekord entry declaring `version`, its `APIVersion` pointer holding the
address `addr`. -/
def rekordAt (addr : Nat) (version : String) : Rekord Unit :=
  ⟨some ⟨addr, version⟩, ()⟩

/-- Sample Rekord entry declaring `version`, its `APIVersion` pointer holding the
address `0xc000012345`. -/
def sampleRekord (version : String) : Rekord Unit := rekordAt 0xc000012345 version

/-- The two overlapping registrations of the spec scenario: a range bound to `F1`
and the exact version `1.0.0` bound to `F2`. -/
def overlapping : List (String × VersionFactory String) :=
  [(">=1.0.0 <2.0.0", F1), ("1.0.0", F2)]

/-- At most one stored constraint has a range that contains the version. -/
def AtMostOneContains {E : Type} (L : SemverLib) (vfm : versionFactoryMap E)
    (version : String) : Prop :=
  ∀ p ∈ vfm.versionFactories, ∀ q ∈ vfm.versionFactories,
    inRange L p.1 version = true → inRange L q.1 version = true → p.1 = q.1

/-- What the code called by `UnmarshalEntry` does to the resolver.  A factory and
the `Unmarshal` method of the object it builds are code of other packages; they
can reach the exported variable `SemVerToFacFnMap` and call `Set` on it.  Each
field gives the table as such a call leaves it. -/
structure Callees (E P : Type) where
  factoryLeaves : (Unit → Option E) → versionFactoryMap E → versionFactoryMap E
  unmarshalLeaves : E → Rekord P → versionFactoryMap E → versionFactoryMap E

/-- Callees that make no call of `Set`. -/
def Callees.quiet (E P : Type) : Callees E P := ⟨fun _ m => m, fun _ _ m => m⟩

/-- The loop of `Get` in state-passing form: every statement takes the table and
hands it on.  `semver.ParseRange`, the range call and the logger belong to
packages that the package imports, so they cannot name `SemVerToFacFnMap`. -/
def getLoopOn {E : Type} (L : SemverLib) (semverToMatch : L.Version) :
    List (String × VersionFactory E) → versionFactoryMap E →
      GetResult E × versionFactoryMap E
  | [], s => (⟨none, false, [], false⟩, s)
  | (k, v) :: rest, s =>
    match L.ParseRange k with
    | .error err => (⟨none, false, [.parseRange k, .logError err], false⟩, s)
    | .ok semverRange =>
      match semverRange semverToMatch with
      | none => (⟨none, false, [.parseRange k], true⟩, s)
      | some true => (⟨v, true, [.parseRange k], false⟩, s)
      | some false =>
        let r := getLoopOn L semverToMatch rest s
        (⟨r.1.fn, r.1.found, .parseRange k :: r.1.trace, r.1.panicked⟩, r.2)

/-- Source function `versionFactoryMap.Get` in state-passing form, run on the
table `s`: its result and the table as the call leaves it.  `iter` gives the
sequence in which `range` visits the entries of a map; the loop reads the
entries from `s`. -/
def GetOn {E : Type} (L : SemverLib)
    (iter : List (String × VersionFactory E) → List (String × VersionFactory E))
    (version : String) (s : versionFactoryMap E) : GetResult E × versionFactoryMap E :=
  match L.Parse version with
  | .error err => (⟨none, false, [.logError err], false⟩, s)
  | .ok semverToMatch => getLoopOn L semverToMatch (iter s.versionFactories) s

/-- Source function `BaseRekordType.UnmarshalEntry` in state-passing form, run
with `SemVerToFacFnMap` holding the table `s`: its run and the table as the call
leaves it.  The call of the factory and the call of `Unmarshal` hand on the table
as `callees` says they leave it. -/
def UnmarshalEntryOn {E P : Type} (L : SemverLib)
    (unmarshal : E → Rekord P → Option GoError × E) (callees : Callees E P)
    (iter : List (String × VersionFactory E) → List (String × VersionFactory E))
    (pe : ProposedEntry P) (s : versionFactoryMap E) : Run E × versionFactoryMap E :=
  match pe with
  | .other _ => (⟨.returned none (some errNonRekord), []⟩, s)
  | .Rekord none => (⟨.panicked, []⟩, s)
  | .Rekord (some rekord) =>
    let version := StringValue rekord.APIVersion
    let g := GetOn L iter version s
    if g.1.panicked then (⟨.panicked, .get version :: g.1.trace⟩, g.2)
    else if g.1.found then
      match g.1.fn with
      | none => (⟨.panicked, .get version :: g.1.trace ++ [.factoryCall]⟩, g.2)
      | some genFn =>
        let s1 := callees.factoryLeaves genFn g.2
        match genFn () with
        | none =>
          (⟨.returned none (some (errGenerating rekord.APIVersion)),
            .get version :: g.1.trace ++ [.factoryCall]⟩, s1)
        | some entry =>
          let s2 := callees.unmarshalLeaves entry rekord s1
          match unmarshal entry rekord with
          | (some err, _) =>
            (⟨.returned none (some err),
              .get version :: g.1.trace ++ [.factoryCall, .unmarshalCall]⟩, s2)
          | (none, entry') =>
            (⟨.returned (some entry') none,
              .get version :: g.1.trace ++ [.factoryCall, .unmarshalCall]⟩, s2)
    else (⟨.returned none (some (errNotFound version)), .get version :: g.1.trace⟩, g.2)

/-- Sample callees: every factory, when called, registers `>=1.0.0 <2.0.0` with
`F2`; `Unmarshal` registers nothing. -/
def registeringCallees : Callees String Unit :=
  ⟨fun _ m => (Set blang m ">=1.0.0 <2.0.0" F2).vfm, fun _ _ m => m⟩

/-- A table built by two `Set` calls whose first range has an empty OR-group: the
range call panics on the versions below `1.0.0`. -/
def panicking : List (String × VersionFactory String) :=
  [(">=1.0.0 || || <0.5.0", F1), ("0.7.0", F2)]

/-- Two registrations with disjoint ranges. -/
def disjointRanges : List (String × VersionFactory String) :=
  [(">=0.0.1 <0.0.2", F1), (">=1.0.0 <2.0.0", F2)]

/-- A table that `Set` cannot produce: its first key is not a range. -/
def brokenTable : List (String × VersionFactory String) :=
  [("not a range", F1), ("1.0.0", F2)]

/-- Sample Rekord entry whose `APIVersion` is the nil pointer. -/
def rekordNoVersion : Rekord Unit := ⟨none, ()⟩

/-! ## Lemmas on the map and on the loop of `Get` -/

theorem mem_of_mapLookup {E : Type} (k : String) (v : VersionFactory E) :
    ∀ l : List (String × VersionFactory E), mapLookup k l = some v → (k, v) ∈ l
  | [], h => by simp [mapLookup] at h
  | (k', v') :: rest, h => by
    unfold mapLookup at h
    split at h
    · rename_i hk
      cases h
      simp [hk]
    · exact List.mem_cons_of_mem _ (mem_of_mapLookup k v rest h)

theorem mapLookup_of_mem {E : Type} (k : String) (v : VersionFactory E) :
    ∀ l : List (String × VersionFactory E), (l.map Prod.fst).Nodup → (k, v) ∈ l →
      mapLookup k l = some v
  | [], _, h => by simp at h
  | (k', v') :: rest, hn, h => by
    simp only [List.map_cons, List.nodup_cons] at hn
    unfold mapLookup
    rcases List.mem_cons.1 h with h | h
    · cases h
      simp
    · have hne : k' ≠ k := by
        intro hk
        apply hn.1
        rw [hk]
        exact List.mem_map_of_mem Prod.fst h
      simp [hne, mapLookup_of_mem k v rest hn.2 h]

theorem mapStore_keys_nodup {E : Type} (k : String) (v : VersionFactory E) :
    ∀ l : List (String × VersionFactory E), (l.map Prod.fst).Nodup →
      ((mapStore k v l).map Prod.fst).Nodup ∧
        ∀ k', k' ∈ (mapStore k v l).map Prod.fst → k' = k ∨ k' ∈ l.map Prod.fst
  | [], _ => by simp [mapStore]
  | (k0, v0) :: rest, hn => by
    simp only [List.map_cons, List.nodup_cons] at hn
    unfold mapStore
    split
    · rename_i hk
      subst hk
      refine ⟨by simpa using hn, ?_⟩
      intro k' hk'
      right
      simpa using hk'
    · rename_i hk
      obtain ⟨ih1, ih2⟩ := mapStore_keys_nodup k v rest hn.2
      refine ⟨?_, ?_⟩
      · simp only [List.map_cons, List.nodup_cons]
        refine ⟨?_, ih1⟩
        intro hmem
        rcases ih2 k0 hmem with h | h
        · exact hk h
        · exact hn.1 h
      · intro k' hk'
        simp only [List.map_cons, List.mem_cons] at hk'
        rcases hk' with h | h
        · right
          simp [h]
        · rcases ih2 k' h with h | h
          · exact Or.inl h
          · right
            simp [h]

theorem mapStore_key_mem {E : Type} (k : String) (v : VersionFactory E) :
    ∀ (l : List (String × VersionFactory E)) (p : String × VersionFactory E),
      p ∈ mapStore k v l → p.1 = k ∨ p ∈ l
  | [], p, h => by
    simp [mapStore] at h
    left
    rw [h]
  | (k0, v0) :: rest, p, h => by
    unfold mapStore at h
    split at h
    · rcases List.mem_cons.1 h with h | h
      · left
        rw [h]
      · right
        exact List.mem_cons_of_mem _ h
    · rcases List.mem_cons.1 h with h | h
      · right
        rw [h]
        exact List.mem_cons_self _ _
      · rcases mapStore_key_mem k v rest p h with h | h
        · exact Or.inl h
        · exact Or.inr (List.mem_cons_of_mem _ h)

theorem Set_preserves {E : Type} (L : SemverLib) (m : versionFactoryMap E) (c : String)
    (f : VersionFactory E) (hw : WellFormed m)
    (hp : ∀ p ∈ m.versionFactories, rangeParses L p.1 = true) :
    WellFormed (Set L m c f).vfm ∧
      ∀ p ∈ (Set L m c f).vfm.versionFactories, rangeParses L p.1 = true := by
  unfold Set
  cases hc : L.ParseRange c with
  | error err => exact ⟨hw, hp⟩
  | ok r =>
    refine ⟨(mapStore_keys_nodup c f m.versionFactories hw).1, ?_⟩
    intro p hmem
    rcases mapStore_key_mem c f m.versionFactories p hmem with h | h
    · rw [h]
      simp [rangeParses, hc]
    · exact hp p h

theorem foldl_Set_invariant {E : Type} (L : SemverLib) :
    ∀ (calls : List (String × VersionFactory E)) (m : versionFactoryMap E),
      WellFormed m → (∀ p ∈ m.versionFactories, rangeParses L p.1 = true) →
      WellFormed (calls.foldl (fun m c => (Set L m c.1 c.2).vfm) m) ∧
        ∀ p ∈ (calls.foldl (fun m c => (Set L m c.1 c.2).vfm) m).versionFactories,
          rangeParses L p.1 = true
  | [], m, hw, hp => ⟨hw, hp⟩
  | c :: rest, m, hw, hp => by
    have h := Set_preserves L m c.1 c.2 hw hp
    exact foldl_Set_invariant L rest _ h.1 h.2

theorem setAll_invariant {E : Type} (L : SemverLib) (calls : List (String × VersionFactory E)) :
    WellFormed (setAll L calls) ∧
      ∀ p ∈ (setAll L calls).versionFactories, rangeParses L p.1 = true :=
  foldl_Set_invariant L calls (SemVerToFacFnMap E) (by simp [WellFormed, SemVerToFacFnMap])
    (by simp [SemVerToFacFnMap])

theorem getLoop_found_mem {E : Type} (L : SemverLib) (sv : L.Version) :
    ∀ order : List (String × VersionFactory E), (getLoop L sv order).found = true →
      ∃ k r, (k, (getLoop L sv order).fn) ∈ order ∧ L.ParseRange k = .ok r ∧
        r sv = some true
  | [], h => by simp [getLoop] at h
  | (k, v) :: rest, h => by
    unfold getLoop at h ⊢
    cases hk : L.ParseRange k with
    | error err => simp [hk] at h
    | ok r =>
      simp only [hk] at h ⊢
      cases hr : r sv with
      | none => simp [hr] at h
      | some b =>
        cases b with
        | true =>
          simp only [hr]
          exact ⟨k, r, List.mem_cons_self _ _, hk, hr⟩
        | false =>
          simp only [hr] at h ⊢
          obtain ⟨k', r', hmem, hk', hr'⟩ := getLoop_found_mem L sv rest h
          exact ⟨k', r', List.mem_cons_of_mem _ hmem, hk', hr'⟩

theorem getLoop_found_not_panicked {E : Type} (L : SemverLib) (sv : L.Version) :
    ∀ order : List (String × VersionFactory E), (getLoop L sv order).found = true →
      (getLoop L sv order).panicked = false
  | [], _ => by simp [getLoop]
  | (k, v) :: rest, h => by
    unfold getLoop at h ⊢
    cases hk : L.ParseRange k with
    | error err => simp
    | ok r =>
      simp only [hk] at h ⊢
      cases hr : r sv with
      | none => simp [hr] at h
      | some b =>
        cases b with
        | true => simp
        | false =>
          simp only [hr] at h ⊢
          exact getLoop_found_not_panicked L sv rest h

theorem getLoop_panicked_mem {E : Type} (L : SemverLib) (sv : L.Version) :
    ∀ order : List (String × VersionFactory E), (getLoop L sv order).panicked = true →
      ∃ p ∈ order, ∃ r, L.ParseRange p.1 = .ok r ∧ r sv = none
  | [], h => by simp [getLoop] at h
  | (k, v) :: rest, h => by
    unfold getLoop at h
    cases hk : L.ParseRange k with
    | error err => simp [hk] at h
    | ok r =>
      simp only [hk] at h
      cases hr : r sv with
      | none => exact ⟨(k, v), List.mem_cons_self _ _, r, hk, hr⟩
      | some b =>
        cases b with
        | true => simp [hr] at h
        | false =>
          simp only [hr] at h
          obtain ⟨p, hmem, r', hk', hr'⟩ := getLoop_panicked_mem L sv rest h
          exact ⟨p, List.mem_cons_of_mem _ hmem, r', hk', hr'⟩

theorem getLoop_not_found {E : Type} (L : SemverLib) (sv : L.Version) :
    ∀ order : List (String × VersionFactory E),
      (∀ p ∈ order, ∀ r, L.ParseRange p.1 = .ok r → r sv = some false) →
      (getLoop L sv order).found = false ∧ (getLoop L sv order).panicked = false
  | [], _ => by simp [getLoop]
  | (k, v) :: rest, h => by
    unfold getLoop
    cases hk : L.ParseRange k with
    | error err => simp
    | ok r =>
      have hr : r sv = some false := h (k, v) (List.mem_cons_self _ _) r hk
      simp only [hr]
      exact getLoop_not_found L sv rest (fun p hp => h p (List.mem_cons_of_mem _ hp))

theorem getLoop_found_of_mem {E : Type} (L : SemverLib) (sv : L.Version) :
    ∀ order : List (String × VersionFactory E),
      (∀ p ∈ order, rangeParses L p.1 = true) →
      (∀ p ∈ order, ∀ r, L.ParseRange p.1 = .ok r → r sv ≠ none) →
      (∃ p ∈ order, ∃ r, L.ParseRange p.1 = .ok r ∧ r sv = some true) →
      (getLoop L sv order).found = true
  | [], _, _, h => by simp at h
  | (k, v) :: rest, hp, hnp, h => by
    unfold getLoop
    cases hk : L.ParseRange k with
    | error err =>
      have := hp (k, v) (List.mem_cons_self _ _)
      simp [rangeParses, hk] at this
    | ok r =>
      cases hr : r sv with
      | none => exact absurd hr (hnp (k, v) (List.mem_cons_self _ _) r hk)
      | some b =>
        cases b with
        | true => simp [hr]
        | false =>
          simp only [hr]
          apply getLoop_found_of_mem L sv rest
            (fun p hmem => hp p (List.mem_cons_of_mem _ hmem))
            (fun p hmem => hnp p (List.mem_cons_of_mem _ hmem))
          obtain ⟨p, hmem, r', hk', hr'⟩ := h
          rcases List.mem_cons.1 hmem with hpe | hmem
          · subst hpe
            rw [hk] at hk'
            cases hk'
            rw [hr] at hr'
            cases hr'
          · exact ⟨p, hmem, r', hk', hr'⟩

theorem getLoop_fn_none {E : Type} (L : SemverLib) (sv : L.Version) :
    ∀ order : List (String × VersionFactory E), (getLoop L sv order).found = false →
      (getLoop L sv order).fn = none
  | [], _ => by simp [getLoop]
  | (k, v) :: rest, h => by
    unfold getLoop at h ⊢
    cases hk : L.ParseRange k with
    | error err => simp
    | ok r =>
      simp only [hk] at h ⊢
      cases hr : r sv with
      | none => simp
      | some b =>
        cases b with
        | true => simp [hr] at h
        | false =>
          simp only [hr] at h ⊢
          exact getLoop_fn_none L sv rest h

theorem getLoop_trace {E : Type} (L : SemverLib) (sv : L.Version) :
    ∀ order : List (String × VersionFactory E), ∀ e ∈ (getLoop L sv order).trace,
      (∃ k, e = .parseRange k) ∨ ∃ err, e = .logError err
  | [], e, h => by simp [getLoop] at h
  | (k, v) :: rest, e, h => by
    unfold getLoop at h
    cases hk : L.ParseRange k with
    | error err =>
      simp only [hk, List.mem_cons, List.mem_singleton, List.not_mem_nil, or_false] at h
      rcases h with h | h
      · exact Or.inl ⟨k, h⟩
      · exact Or.inr ⟨err, h⟩
    | ok r =>
      simp only [hk] at h
      cases hr : r sv with
      | none =>
        simp only [hr, List.mem_singleton] at h
        exact Or.inl ⟨k, h⟩
      | some b =>
        cases b with
        | true =>
          simp only [hr, List.mem_singleton] at h
          exact Or.inl ⟨k, h⟩
        | false =>
          simp only [hr, List.mem_cons] at h
          rcases h with h | h
          · exact Or.inl ⟨k, h⟩
          · exact getLoop_trace L sv rest e h

theorem getLoop_trace_all {E : Type} (L : SemverLib) (sv : L.Version) :
    ∀ order : List (String × VersionFactory E),
      (∀ p ∈ order, rangeParses L p.1 = true) →
      (∀ p ∈ order, ∀ r, L.ParseRange p.1 = .ok r → r sv = some false) →
      (getLoop L sv order).trace = order.map (fun p => Event.parseRange p.1)
  | [], _, _ => by simp [getLoop]
  | (k, v) :: rest, hp, h => by
    unfold getLoop
    cases hk : L.ParseRange k with
    | error err =>
      have := hp (k, v) (List.mem_cons_self _ _)
      simp [rangeParses, hk] at this
    | ok r =>
      have hr : r sv = some false := h (k, v) (List.mem_cons_self _ _) r hk
      simp only [hr, List.map_cons]
      rw [getLoop_trace_all L sv rest (fun p hm => hp p (List.mem_cons_of_mem _ hm))
        (fun p hm => h p (List.mem_cons_of_mem _ hm))]

theorem getLoop_no_logError {E : Type} (L : SemverLib) (sv : L.Version) :
    ∀ order : List (String × VersionFactory E),
      (∀ p ∈ order, rangeParses L p.1 = true) →
      ∀ err, Event.logError err ∉ (getLoop L sv order).trace
  | [], _, err => by simp [getLoop]
  | (k, v) :: rest, hp, err => by
    unfold getLoop
    cases hk : L.ParseRange k with
    | error e =>
      have := hp (k, v) (List.mem_cons_self _ _)
      simp [rangeParses, hk] at this
    | ok r =>
      cases hr : r sv with
      | none => simp [hr]
      | some b =>
        cases b with
        | true => simp [hr]
        | false =>
          simp only [hr, List.mem_cons, not_or]
          exact ⟨by simp, getLoop_no_logError L sv rest
            (fun p hm => hp p (List.mem_cons_of_mem _ hm)) err⟩

theorem getLoop_abort {E : Type} (L : SemverLib) (sv : L.Version) (k : String)
    (f : VersionFactory E) (post : List (String × VersionFactory E)) (err : GoError)
    (hk : L.ParseRange k = .error err) :
    ∀ pre : List (String × VersionFactory E),
      (∀ p ∈ pre, ∃ r, L.ParseRange p.1 = .ok r ∧ r sv = some false) →
      getLoop L sv (pre ++ (k, f) :: post) =
        ⟨none, false, pre.map (fun p => Event.parseRange p.1) ++
          [.parseRange k, .logError err], false⟩
  | [], _ => by simp [getLoop, hk]
  | (k0, v0) :: rest, h => by
    obtain ⟨r, hr, hsv⟩ := h (k0, v0) (List.mem_cons_self _ _)
    have ih := getLoop_abort L sv k f post err hk rest
      (fun p hm => h p (List.mem_cons_of_mem _ hm))
    have hr' : L.ParseRange k0 = .ok r := hr
    rw [List.cons_append]
    unfold getLoop
    simp only [hr', hsv, ih, List.map_cons, List.cons_append]

theorem inRange_iff (L : SemverLib) (k v : String) (sv : L.Version)
    (r : L.Version → Option Bool) (hv : L.Parse v = .ok sv) (hk : L.ParseRange k = .ok r) :
    (inRange L k v = true ↔ r sv = some true) ∧ (rangePanics L k v = true ↔ r sv = none) := by
  unfold inRange rangePanics
  simp only [hv, hk]
  cases hr : r sv with
  | none => simp
  | some b => cases b <;> simp

theorem range_returns_false (L : SemverLib) (k v : String) (sv : L.Version)
    (r : L.Version → Option Bool) (hv : L.Parse v = .ok sv) (hk : L.ParseRange k = .ok r)
    (h1 : inRange L k v = false) (h2 : rangePanics L k v = false) : r sv = some false := by
  obtain ⟨hi, hp⟩ := inRange_iff L k v sv r hv hk
  cases hr : r sv with
  | none => rw [hp.2 hr] at h2; cases h2
  | some b =>
    cases b with
    | false => rfl
    | true => rw [hi.2 hr] at h1; cases h1

theorem Get_fn_none {E : Type} (L : SemverLib) (order : List (String × VersionFactory E))
    (version : String) (h : (Get L order version).found = false) :
    (Get L order version).fn = none := by
  unfold Get at h ⊢
  cases hv : L.Parse version with
  | error err => simp
  | ok sv =>
    simp only [hv] at h ⊢
    exact getLoop_fn_none L sv order h

theorem Get_found_not_panicked {E : Type} (L : SemverLib)
    (order : List (String × VersionFactory E)) (version : String)
    (h : (Get L order version).found = true) : (Get L order version).panicked = false := by
  unfold Get at h ⊢
  cases hv : L.Parse version with
  | error err => simp
  | ok sv =>
    simp only [hv] at h ⊢
    exact getLoop_found_not_panicked L sv order h

theorem Get_trace {E : Type} (L : SemverLib) (order : List (String × VersionFactory E))
    (version : String) :
    ∀ e ∈ (Get L order version).trace, (∃ k, e = .parseRange k) ∨ ∃ err, e = .logError err := by
  intro e h
  unfold Get at h
  cases hv : L.Parse version with
  | error err =>
    simp only [hv, List.mem_singleton] at h
    exact Or.inr ⟨err, h⟩
  | ok sv =>
    simp only [hv] at h
    exact getLoop_trace L sv order e h

theorem Get_found_inRange {E : Type} (L : SemverLib) (order : List (String × VersionFactory E))
    (version : String) (h : (Get L order version).found = true) :
    versionParses L version = true ∧
      ∃ k, (k, (Get L order version).fn) ∈ order ∧ inRange L k version = true := by
  unfold Get at h ⊢
  cases hv : L.Parse version with
  | error err => simp [hv] at h
  | ok sv =>
    simp only [hv] at h ⊢
    obtain ⟨k, r, hmem, hk, hr⟩ := getLoop_found_mem L sv order h
    exact ⟨by simp [versionParses, hv], k, hmem, (inRange_iff L k version sv r hv hk).1.2 hr⟩

theorem Get_panicked_mem {E : Type} (L : SemverLib) (order : List (String × VersionFactory E))
    (version : String) (h : (Get L order version).panicked = true) :
    ∃ p ∈ order, rangePanics L p.1 version = true := by
  unfold Get at h
  cases hv : L.Parse version with
  | error err => simp [hv] at h
  | ok sv =>
    simp only [hv] at h
    obtain ⟨p, hmem, r, hk, hr⟩ := getLoop_panicked_mem L sv order h
    exact ⟨p, hmem, (inRange_iff L p.1 version sv r hv hk).2.2 hr⟩

theorem Get_not_panicked {E : Type} (L : SemverLib) (order : List (String × VersionFactory E))
    (version : String) (hnp : ∀ p ∈ order, rangePanics L p.1 version = false) :
    (Get L order version).panicked = false := by
  cases h : (Get L order version).panicked with
  | false => rfl
  | true =>
    obtain ⟨p, hmem, hp⟩ := Get_panicked_mem L order version h
    rw [hnp p hmem] at hp
    cases hp

theorem Get_not_found {E : Type} (L : SemverLib) (order : List (String × VersionFactory E))
    (version : String) (h : ∀ p ∈ order, inRange L p.1 version = false)
    (hnp : ∀ p ∈ order, rangePanics L p.1 version = false) :
    (Get L order version).found = false := by
  unfold Get
  cases hv : L.Parse version with
  | error err => simp
  | ok sv =>
    simp only
    exact (getLoop_not_found L sv order (fun p hp r hr =>
      range_returns_false L p.1 version sv r hv hr (h p hp) (hnp p hp))).1

theorem Get_found_of_mem {E : Type} (L : SemverLib) (order : List (String × VersionFactory E))
    (version : String) (hp : ∀ p ∈ order, rangeParses L p.1 = true)
    (hnp : ∀ p ∈ order, rangePanics L p.1 version = false)
    (h : ∃ p ∈ order, inRange L p.1 version = true) :
    (Get L order version).found = true := by
  obtain ⟨p, hmem, hin⟩ := h
  unfold Get
  cases hv : L.Parse version with
  | error err => simp [inRange, hv] at hin
  | ok sv =>
    simp only
    cases hk : L.ParseRange p.1 with
    | error err => simp [inRange, hv, hk] at hin
    | ok r =>
      refine getLoop_found_of_mem L sv order hp ?_
        ⟨p, hmem, r, hk, (inRange_iff L p.1 version sv r hv hk).1.1 hin⟩
      intro q hq rq hkq hnone
      have := (inRange_iff L q.1 version sv rq hv hkq).2.2 hnone
      rw [hnp q hq] at this
      cases this

theorem Get_trace_all {E : Type} (L : SemverLib) (order : List (String × VersionFactory E))
    (version : String) (hv : versionParses L version = true)
    (hp : ∀ p ∈ order, rangeParses L p.1 = true)
    (h : ∀ p ∈ order, inRange L p.1 version = false)
    (hnp : ∀ p ∈ order, rangePanics L p.1 version = false) :
    (Get L order version).trace = order.map (fun p => Event.parseRange p.1) := by
  unfold Get
  unfold versionParses at hv
  cases hparse : L.Parse version with
  | error err => simp [hparse] at hv
  | ok sv =>
    simp only
    exact getLoop_trace_all L sv order hp (fun p hm r hr =>
      range_returns_false L p.1 version sv r hparse hr (h p hm) (hnp p hm))

theorem IterationOf.mem_iff {E : Type} {vfm : versionFactoryMap E}
    {order : List (String × VersionFactory E)} (ho : IterationOf vfm order)
    (p : String × VersionFactory E) : p ∈ order ↔ p ∈ vfm.versionFactories :=
  List.Perm.mem_iff ho

theorem F1_ne_F2 : F1 ≠ F2 := by
  intro h
  have h1 := congrFun (Option.some.inj h) ()
  simp at h1

/-! ## C1 -/

/-- C1, as stated, fails in two ways.  When registered ranges overlap: after
`Set(">=1.0.0 <2.0.0", F1)` and `Set("1.0.0", F2)`, the constraint `"1.0.0"` is
registered with `F2` and contains the version `"1.0.0"`, but when the iteration
visits the range `">=1.0.0 <2.0.0"` first, `Get("1.0.0")` returns `F1`, not `F2`.
When a registered range panics on the version: after
`Set(">=1.0.0 || || <0.5.0", F1)` and `Set("0.7.0", F2)`, the constraint `"0.7.0"`
contains the version `"0.7.0"`, but when the iteration visits the other
constraint first, `Get("0.7.0")` panics. -/
theorem C1_counterexample :
    (mapLookup "1.0.0" (setAll blang overlapping).versionFactories = some F2 ∧
      inRange blang "1.0.0" "1.0.0" = true ∧
      IterationOf (setAll blang overlapping) overlapping ∧
      ¬ ((Get blang overlapping "1.0.0").found = true ∧
          (Get blang overlapping "1.0.0").fn = F2)) ∧
    (mapLookup "0.7.0" (setAll blang panicking).versionFactories = some F2 ∧
      inRange blang "0.7.0" "0.7.0" = true ∧
      IterationOf (setAll blang panicking) panicking ∧
      (Get blang panicking "0.7.0").panicked = true ∧
      (Get blang panicking "0.7.0").found = false) := by
  refine ⟨⟨rfl, by decide, List.Perm.refl _, ?_⟩, rfl, by decide, List.Perm.refl _, rfl, rfl⟩
  intro h
  have h1 : (Get blang overlapping "1.0.0").fn = F1 := rfl
  exact F1_ne_F2 (h1.symm.trans h.2)

/-- C1 (amended): on a table built from the empty one by `Set` calls, if the
constraint `c` is registered with factory `f`, its range contains the parsed
version `v`, and the range call of no registered constraint panics on `v`, then
for every iteration order `Get(v)` returns `found = true` together with the
factory registered under some constraint whose range contains `v`; that factory
is `f` whenever no other registered constraint contains `v`. -/
theorem C1_Get_finds_registered_factory {E : Type} (L : SemverLib)
    (calls order : List (String × VersionFactory E)) (c v : String) (f : VersionFactory E)
    (hc : mapLookup c (setAll L calls).versionFactories = some f)
    (hv : inRange L c v = true)
    (hnp : ∀ p ∈ (setAll L calls).versionFactories, rangePanics L p.1 v = false)
    (ho : IterationOf (setAll L calls) order) :
    (Get L order v).panicked = false ∧
      (Get L order v).found = true ∧
      (∃ c', mapLookup c' (setAll L calls).versionFactories = some (Get L order v).fn ∧
        inRange L c' v = true) ∧
      ((∀ p ∈ (setAll L calls).versionFactories, p.1 ≠ c → inRange L p.1 v = false) →
        (Get L order v).fn = f) := by
  obtain ⟨hw, hp⟩ := setAll_invariant L calls
  have hmem : (c, f) ∈ order := (ho.mem_iff _).2 (mem_of_mapLookup c f _ hc)
  have hfound : (Get L order v).found = true :=
    Get_found_of_mem L order v (fun p h => hp p ((ho.mem_iff p).1 h))
      (fun p h => hnp p ((ho.mem_iff p).1 h)) ⟨(c, f), hmem, hv⟩
  obtain ⟨_, k, hk, hin⟩ := Get_found_inRange L order v hfound
  have hlook : mapLookup k (setAll L calls).versionFactories = some (Get L order v).fn :=
    mapLookup_of_mem k _ _ hw ((ho.mem_iff _).1 hk)
  refine ⟨Get_found_not_panicked L order v hfound, hfound, ⟨k, hlook, hin⟩, ?_⟩
  intro huniq
  by_cases hkc : k = c
  · rw [hkc, hc] at hlook
    exact (Option.some.inj hlook).symm
  · have := huniq (k, (Get L order v).fn) ((ho.mem_iff _).1 hk) hkc
    rw [hin] at this
    cases this

/-- C1, spec scenario 1: after `Set(">=0.0.1 <0.0.2", F1)`, `Get("0.0.1")` returns
`(F1, true)`. -/
theorem C1_Get_finds_registered_factory_witness :
    (mapLookup ">=0.0.1 <0.0.2" (setAll blang [(">=0.0.1 <0.0.2", F1)]).versionFactories
        = some F1 ∧
      inRange blang ">=0.0.1 <0.0.2" "0.0.1" = true ∧
      (∀ p ∈ (setAll blang [(">=0.0.1 <0.0.2", F1)]).versionFactories,
        rangePanics blang p.1 "0.0.1" = false) ∧
      IterationOf (setAll blang [(">=0.0.1 <0.0.2", F1)]) [(">=0.0.1 <0.0.2", F1)]) ∧
    (Get blang [(">=0.0.1 <0.0.2", F1)] "0.0.1").panicked = false ∧
    (Get blang [(">=0.0.1 <0.0.2", F1)] "0.0.1").found = true ∧
    (Get blang [(">=0.0.1 <0.0.2", F1)] "0.0.1").fn = F1 :=
  have h := C1_Get_finds_registered_factory blang [(">=0.0.1 <0.0.2", F1)]
    [(">=0.0.1 <0.0.2", F1)] ">=0.0.1 <0.0.2" "0.0.1" F1 rfl (by decide) (by decide)
    (List.Perm.refl _)
  ⟨⟨rfl, by decide, by decide, List.Perm.refl _⟩, h.1, h.2.1, h.2.2.2 (by decide)⟩

/-! ## C2 -/

/-- C2, as stated, fails when a registered range panics on the version: after
`Set(">=1.0.0 || || <0.5.0", F1)` the version `0.7.0` parses and lies in the range
of no registered constraint, but `Get("0.7.0")` panics in the range call, and so
does `UnmarshalEntry`: no error is returned. -/
theorem C2_counterexample :
    versionParses blang (StringValue (sampleRekord "0.7.0").APIVersion) = true ∧
    (∀ p ∈ (setAll blang [(">=1.0.0 || || <0.5.0", F1)]).versionFactories,
      inRange blang p.1 (StringValue (sampleRekord "0.7.0").APIVersion) = false) ∧
    IterationOf (setAll blang [(">=1.0.0 || || <0.5.0", F1)])
      [(">=1.0.0 || || <0.5.0", F1)] ∧
    (Get blang [(">=1.0.0 || || <0.5.0", F1)] "0.7.0").panicked = true ∧
    (UnmarshalEntry blang sampleUnmarshal [(">=1.0.0 || || <0.5.0", F1)]
      (.Rekord (some (sampleRekord "0.7.0")))).outcome = .panicked :=
  ⟨by decide, by decide, List.Perm.refl _, rfl, rfl⟩

/-- C2 (amended): on a table built by `Set` calls, for a Rekord entry whose
declared version parses and on which the range call of every registered
constraint returns false (it lies in no range and no range call panics), `Get`
returns `(nil, false)`, having tested every stored constraint, and
`UnmarshalEntry` returns a nil entry with the error
`RekordType implementation for version '<v>' not found`; no factory is called. -/
theorem C2_version_outside_every_constraint {E P : Type} (L : SemverLib)
    (unmarshal : E → Rekord P → Option GoError × E)
    (calls order : List (String × VersionFactory E)) (r : Rekord P)
    (hv : versionParses L (StringValue r.APIVersion) = true)
    (hout : ∀ p ∈ (setAll L calls).versionFactories,
      inRange L p.1 (StringValue r.APIVersion) = false)
    (hnp : ∀ p ∈ (setAll L calls).versionFactories,
      rangePanics L p.1 (StringValue r.APIVersion) = false)
    (ho : IterationOf (setAll L calls) order) :
    (Get L order (StringValue r.APIVersion)).panicked = false ∧
      (Get L order (StringValue r.APIVersion)).found = false ∧
      (Get L order (StringValue r.APIVersion)).fn = none ∧
      (Get L order (StringValue r.APIVersion)).trace =
        order.map (fun p => Event.parseRange p.1) ∧
      (UnmarshalEntry L unmarshal order (.Rekord (some r))).outcome =
        .returned none (some ⟨"RekordType implementation for version '" ++
          StringValue r.APIVersion ++ "' not found"⟩) ∧
      Event.factoryCall ∉ (UnmarshalEntry L unmarshal order (.Rekord (some r))).trace := by
  have hout' : ∀ p ∈ order, inRange L p.1 (StringValue r.APIVersion) = false :=
    fun p h => hout p ((ho.mem_iff p).1 h)
  have hnp' : ∀ p ∈ order, rangePanics L p.1 (StringValue r.APIVersion) = false :=
    fun p h => hnp p ((ho.mem_iff p).1 h)
  have hfound : (Get L order (StringValue r.APIVersion)).found = false :=
    Get_not_found L order _ hout' hnp'
  have hpan : (Get L order (StringValue r.APIVersion)).panicked = false :=
    Get_not_panicked L order _ hnp'
  refine ⟨hpan, hfound, Get_fn_none L order _ hfound,
    Get_trace_all L order _ hv
      (fun p h => (setAll_invariant L calls).2 p ((ho.mem_iff p).1 h)) hout' hnp', ?_, ?_⟩
  · simp [UnmarshalEntry, hfound, hpan, errNotFound]
  · simp only [UnmarshalEntry, hfound, hpan]
    intro hmem
    rcases List.mem_cons.1 hmem with h | h
    · cases h
    · rcases Get_trace L order _ _ h with ⟨k, hk⟩ | ⟨err, hk⟩ <;> cases hk

/-- C2 (amended), spec scenario 2: with only `>=0.0.1 <0.0.2` registered, version
`5.0.0` is not supported. -/
theorem C2_version_outside_every_constraint_witness :
    (versionParses blang (StringValue (sampleRekord "5.0.0").APIVersion) = true ∧
      (∀ p ∈ (setAll blang [(">=0.0.1 <0.0.2", F1)]).versionFactories,
        inRange blang p.1 (StringValue (sampleRekord "5.0.0").APIVersion) = false) ∧
      (∀ p ∈ (setAll blang [(">=0.0.1 <0.0.2", F1)]).versionFactories,
        rangePanics blang p.1 (StringValue (sampleRekord "5.0.0").APIVersion) = false) ∧
      IterationOf (setAll blang [(">=0.0.1 <0.0.2", F1)]) [(">=0.0.1 <0.0.2", F1)]) ∧
    (Get blang [(">=0.0.1 <0.0.2", F1)] "5.0.0").found = false ∧
    (UnmarshalEntry blang sampleUnmarshal [(">=0.0.1 <0.0.2", F1)]
        (.Rekord (some (sampleRekord "5.0.0")))).outcome =
      .returned none (some ⟨"RekordType implementation for version '5.0.0' not found"⟩) :=
  have h := C2_version_outside_every_constraint blang sampleUnmarshal
    [(">=0.0.1 <0.0.2", F1)] [(">=0.0.1 <0.0.2", F1)] (sampleRekord "5.0.0")
    (by decide) (by decide) (by decide) (List.Perm.refl _)
  ⟨⟨by decide, by decide, by decide, List.Perm.refl _⟩, h.2.1, h.2.2.2.2.1⟩

/-! ## C3 -/

/-- C3: `Set` with a string that does not parse as a range returns with the table
unchanged, so `Get` has the same possible results after the call as before it,
for every version string. -/
theorem C3_Set_invalid_constraint_discarded {E : Type} (L : SemverLib)
    (m : versionFactoryMap E) (s : String) (f : VersionFactory E)
    (hs : rangeParses L s = false) :
    (Set L m s f).vfm = m ∧
      ∀ (v : String) (res : GetResult E),
        GetReturns L (Set L m s f).vfm v res ↔ GetReturns L m v res := by
  have h : (Set L m s f).vfm = m := by
    unfold Set
    unfold rangeParses at hs
    cases hc : L.ParseRange s with
    | error err => rfl
    | ok r => simp [hc] at hs
  exact ⟨h, fun v res => by rw [h]⟩

/-- C3 at a concrete input: registering `not a range` changes nothing. -/
theorem C3_Set_invalid_constraint_discarded_witness :
    rangeParses blang "not a range" = false ∧
    (Set blang (setAll blang [(">=0.0.1 <0.0.2", F1)]) "not a range" F2).vfm =
      setAll blang [(">=0.0.1 <0.0.2", F1)] :=
  ⟨by decide, (C3_Set_invalid_constraint_discarded blang
    (setAll blang [(">=0.0.1 <0.0.2", F1)]) "not a range" F2 (by decide)).1⟩

/-! ## C4 -/

/-- C4: on every table and for every iteration order, a version string that does
not parse as a semantic version makes `Get` return `(nil, false)` without parsing
or testing any stored constraint, and `UnmarshalEntry` on a Rekord entry carrying
that version returns (it does not panic) a nil entry with the
version-not-supported error; no factory is called. -/
theorem C4_malformed_version_not_found {E P : Type} (L : SemverLib)
    (unmarshal : E → Rekord P → Option GoError × E)
    (order : List (String × VersionFactory E)) (r : Rekord P)
    (hv : versionParses L (StringValue r.APIVersion) = false) :
    (Get L order (StringValue r.APIVersion)).fn = none ∧
      (Get L order (StringValue r.APIVersion)).found = false ∧
      (Get L order (StringValue r.APIVersion)).panicked = false ∧
      (∀ c, Event.parseRange c ∉ (Get L order (StringValue r.APIVersion)).trace) ∧
      (UnmarshalEntry L unmarshal order (.Rekord (some r))).outcome =
        .returned none (some ⟨"RekordType implementation for version '" ++
          StringValue r.APIVersion ++ "' not found"⟩) ∧
      Event.factoryCall ∉ (UnmarshalEntry L unmarshal order (.Rekord (some r))).trace := by
  unfold versionParses at hv
  cases hparse : L.Parse (StringValue r.APIVersion) with
  | ok sv => simp [hparse] at hv
  | error err =>
    have hget : Get L order (StringValue r.APIVersion) =
        ⟨none, false, [.logError err], false⟩ := by
      simp [Get, hparse]
    simp [UnmarshalEntry, hget, errNotFound]

/-- C4, spec scenario 3: the version `not-a-version`, looked up in a table that
holds a constraint. -/
theorem C4_malformed_version_not_found_witness :
    versionParses blang (StringValue (sampleRekord "not-a-version").APIVersion) = false ∧
    (Get blang [(">=0.0.1 <0.0.2", F1)] "not-a-version").found = false ∧
    (Get blang [(">=0.0.1 <0.0.2", F1)] "not-a-version").panicked = false ∧
    (UnmarshalEntry blang sampleUnmarshal [(">=0.0.1 <0.0.2", F1)]
        (.Rekord (some (sampleRekord "not-a-version")))).outcome =
      .returned none
        (some ⟨"RekordType implementation for version 'not-a-version' not found"⟩) :=
  have h := C4_malformed_version_not_found blang sampleUnmarshal [(">=0.0.1 <0.0.2", F1)]
    (sampleRekord "not-a-version") (by decide)
  ⟨by decide, h.2.1, h.2.2.1, h.2.2.2.2.1⟩

/-! ## C5 -/

/-- C5: for a proposed entry whose dynamic type is not `*models.Rekord`, whatever
the table, the iteration order and the entry, `UnmarshalEntry` returns a nil entry
and the error `cannot unmarshal non-Rekord types`; it makes no call at all:
neither `Get`, nor a factory, nor `Unmarshal`. -/
theorem C5_non_Rekord_rejected {E P : Type} (L : SemverLib)
    (unmarshal : E → Rekord P → Option GoError × E)
    (order : List (String × VersionFactory E)) (kind : String) :
    (UnmarshalEntry L unmarshal order (.other kind)).outcome =
        .returned none (some ⟨"cannot unmarshal non-Rekord types"⟩) ∧
      (UnmarshalEntry L unmarshal order (.other kind)).trace = [] :=
  ⟨rfl, rfl⟩

/-! ## C6 -/

/-- C6, as stated, fails when a stored range panics on the version: on the table
built by `Set(">=1.0.0 || || <0.5.0", F1)` no stored constraint contains the
version `0.7.0`, yet `Get("0.7.0")` does not return `found = false`: it panics in
the range call. -/
theorem C6_counterexample :
    WellFormed (setAll blang [(">=1.0.0 || || <0.5.0", F1)]) ∧
    IterationOf (setAll blang [(">=1.0.0 || || <0.5.0", F1)])
      [(">=1.0.0 || || <0.5.0", F1)] ∧
    (∀ p ∈ (setAll blang [(">=1.0.0 || || <0.5.0", F1)]).versionFactories,
      inRange blang p.1 "0.7.0" = false) ∧
    (Get blang [(">=1.0.0 || || <0.5.0", F1)] "0.7.0").panicked = true :=
  ⟨(setAll_invariant blang _).1, List.Perm.refl _, by decide, rfl⟩

/-- C6 (amended): on every table (a map: one value per key) and for every
iteration order, when `Get(v)` returns `found = true` the string `v` parses as a
semantic version and the factory returned is the one stored under some
constraint whose range contains `v`; when no stored constraint contains `v` and
the range call of no stored constraint panics on `v`, `Get(v)` returns
`(nil, false)`. -/
theorem C6_Get_returns_stored_containing_factory {E : Type} (L : SemverLib)
    (vfm : versionFactoryMap E) (order : List (String × VersionFactory E)) (v : String)
    (hw : WellFormed vfm) (ho : IterationOf vfm order) :
    ((Get L order v).found = true →
        (Get L order v).panicked = false ∧
        versionParses L v = true ∧
          ∃ c, mapLookup c vfm.versionFactories = some (Get L order v).fn ∧
            inRange L c v = true) ∧
      ((∀ p ∈ vfm.versionFactories, inRange L p.1 v = false) →
        (∀ p ∈ vfm.versionFactories, rangePanics L p.1 v = false) →
        (Get L order v).panicked = false ∧ (Get L order v).found = false ∧
          (Get L order v).fn = none) := by
  constructor
  · intro hfound
    obtain ⟨hv, k, hk, hin⟩ := Get_found_inRange L order v hfound
    exact ⟨Get_found_not_panicked L order v hfound, hv, k,
      mapLookup_of_mem k _ _ hw ((ho.mem_iff _).1 hk), hin⟩
  · intro hnone hnp
    have hnp' : ∀ p ∈ order, rangePanics L p.1 v = false :=
      fun p h => hnp p ((ho.mem_iff p).1 h)
    have hfound : (Get L order v).found = false :=
      Get_not_found L order v (fun p h => hnone p ((ho.mem_iff p).1 h)) hnp'
    exact ⟨Get_not_panicked L order v hnp', hfound, Get_fn_none L order v hfound⟩

/-- C6 (amended), spec scenario 4: with `>=1.0.0 <2.0.0` bound to `F1` and `1.0.0`
bound to `F2`, `Get("1.0.0")` finds a factory stored under a constraint containing
`1.0.0`; in the order that visits `1.0.0` first it is `F2`, and `F2` is not `F1`. -/
theorem C6_Get_returns_stored_containing_factory_witness :
    (WellFormed (setAll blang overlapping) ∧
      IterationOf (setAll blang overlapping) overlapping.reverse) ∧
    (Get blang overlapping.reverse "1.0.0").found = true ∧
    (∃ c, mapLookup c (setAll blang overlapping).versionFactories =
        some (Get blang overlapping.reverse "1.0.0").fn ∧ inRange blang c "1.0.0" = true) ∧
    (Get blang overlapping.reverse "1.0.0").fn = F2 ∧ F2 ≠ F1 :=
  have hw : WellFormed (setAll blang overlapping) := (setAll_invariant blang overlapping).1
  have ho : IterationOf (setAll blang overlapping) overlapping.reverse :=
    List.reverse_perm overlapping
  ⟨⟨hw, ho⟩, rfl,
    ((C6_Get_returns_stored_containing_factory blang (setAll blang overlapping)
      overlapping.reverse "1.0.0" hw ho).1 rfl).2.2, rfl, fun h => F1_ne_F2 h.symm⟩

/-! ## C7 -/

theorem UnmarshalEntry_factory_nil {E P : Type} (L : SemverLib)
    (unmarshal : E → Rekord P → Option GoError × E)
    (order : List (String × VersionFactory E)) (r : Rekord P) (genFn : Unit → Option E)
    (hfound : (Get L order (StringValue r.APIVersion)).found = true)
    (hfn : (Get L order (StringValue r.APIVersion)).fn = some genFn)
    (hnil : genFn () = none) :
    (UnmarshalEntry L unmarshal order (.Rekord (some r))).outcome =
      .returned none (some ⟨"failure generating Rekord object for version '" ++
        fmtPointer r.APIVersion ++ "'"⟩) := by
  simp [UnmarshalEntry, hfound, Get_found_not_panicked L order _ hfound, hfn, hnil,
    errGenerating]

theorem digitChar_ne_dot (d : Nat) : Nat.digitChar d ≠ '.' := by
  by_cases h : d < 16
  · interval_cases d <;> decide
  · unfold Nat.digitChar
    repeat rw [if_neg (by omega)]
    decide

theorem toDigitsCore_ne_dot :
    ∀ (fuel n : Nat) (acc : List Char), (∀ c ∈ acc, c ≠ '.') →
      ∀ c ∈ Nat.toDigitsCore 16 fuel n acc, c ≠ '.'
  | 0, _, acc, hacc => by simpa [Nat.toDigitsCore] using hacc
  | fuel + 1, n, acc, hacc => by
    have hacc' : ∀ c ∈ Nat.digitChar (n % 16) :: acc, c ≠ '.' := by
      intro c hc
      rcases List.mem_cons.1 hc with h | h
      · rw [h]
        exact digitChar_ne_dot _
      · exact hacc c h
    simp only [Nat.toDigitsCore]
    split_ifs
    · exact hacc'
    · exact toDigitsCore_ne_dot fuel (n / 16) _ hacc'

theorem errGenerating_no_dot (p : StringPtr) : '.' ∉ (errGenerating (some p)).msg.data := by
  have hd : ∀ c ∈ Nat.toDigits 16 p.addr, c ≠ '.' :=
    toDigitsCore_ne_dot _ _ [] (by simp)
  have h1 : '.' ∉ "failure generating Rekord object for version '".data := by decide
  have h2 : '.' ∉ "0x".data := by decide
  have h3 : '.' ∉ "'".data := by decide
  simp only [errGenerating, fmtPointer, String.data_append, List.mem_append, not_or]
  exact ⟨⟨h1, h2, fun h => hd _ h rfl⟩, h3⟩

/-- C7 fails on the code: with `>=0.0.1 <0.0.2` bound to a factory that yields nil
and a Rekord entry declaring `0.0.1`, whatever address `addr` its `APIVersion`
pointer holds, `UnmarshalEntry` returns a nil entry and an error whose text shows
the pointer, `failure generating Rekord object for version '0x<addr in hex>'`; the
requested version `0.0.1` does not occur in it. -/
theorem C7_factory_failure_error_omits_version (addr : Nat) :
    (Get blang [(">=0.0.1 <0.0.2", FNil)] "0.0.1").found = true ∧
    (UnmarshalEntry blang sampleUnmarshal [(">=0.0.1 <0.0.2", FNil)]
        (.Rekord (some (rekordAt addr "0.0.1")))).outcome =
      .returned none (some ⟨"failure generating Rekord object for version '0x" ++
        String.mk (Nat.toDigits 16 addr) ++ "'"⟩) ∧
    ¬ Includes ("failure generating Rekord object for version '0x" ++
        String.mk (Nat.toDigits 16 addr) ++ "'") "0.0.1" ∧
    (UnmarshalEntry blang sampleUnmarshal [(">=0.0.1 <0.0.2", FNil)]
        (.Rekord (some (rekordAt 0xc000012345 "0.0.1")))).outcome =
      .returned none
        (some ⟨"failure generating Rekord object for version '0xc000012345'"⟩) := by
  have hout : (UnmarshalEntry blang sampleUnmarshal [(">=0.0.1 <0.0.2", FNil)]
        (.Rekord (some (rekordAt addr "0.0.1")))).outcome =
      .returned none (some (errGenerating (some ⟨addr, "0.0.1"⟩))) := rfl
  have hmsg : (errGenerating (some ⟨addr, "0.0.1"⟩)).msg =
      "failure generating Rekord object for version '0x" ++
        String.mk (Nat.toDigits 16 addr) ++ "'" := by
    simp only [errGenerating, fmtPointer]
    apply String.ext
    simp only [String.data_append, List.append_assoc]
    rfl
  refine ⟨rfl, ?_, ?_, rfl⟩
  · rw [hout, ← hmsg]
  · rw [← hmsg]
    intro hinc
    have hdot : '.' ∈ "0.0.1".data := by decide
    exact errGenerating_no_dot ⟨addr, "0.0.1"⟩ (List.IsInfix.subset hinc hdot)

/-! ## C8 -/

/-- C8: for a Rekord entry whose version resolves to a factory that yields an
object `obj`, if `obj.Unmarshal(rekord)` returns the error `e`, then
`UnmarshalEntry` returns a nil entry together with `e` itself. -/
theorem C8_Unmarshal_error_returned_unchanged {E P : Type} (L : SemverLib)
    (unmarshal : E → Rekord P → Option GoError × E)
    (order : List (String × VersionFactory E)) (r : Rekord P) (genFn : Unit → Option E)
    (obj obj' : E) (e : GoError)
    (hfound : (Get L order (StringValue r.APIVersion)).found = true)
    (hfn : (Get L order (StringValue r.APIVersion)).fn = some genFn)
    (hobj : genFn () = some obj)
    (hum : unmarshal obj r = (some e, obj')) :
    (UnmarshalEntry L unmarshal order (.Rekord (some r))).outcome =
      .returned none (some e) := by
  simp [UnmarshalEntry, hfound, Get_found_not_panicked L order _ hfound, hfn, hobj, hum]

/-- C8 at a concrete input: the object of `FBad` fails to unmarshal with
`decode failure`, and that error is what `UnmarshalEntry` returns. -/
theorem C8_Unmarshal_error_returned_unchanged_witness :
    ((Get blang [(">=0.0.1 <0.0.2", FBad)]
        (StringValue (sampleRekord "0.0.1").APIVersion)).found = true ∧
      (Get blang [(">=0.0.1 <0.0.2", FBad)]
        (StringValue (sampleRekord "0.0.1").APIVersion)).fn = some (fun _ => some "bad") ∧
      sampleUnmarshal "bad" (sampleRekord "0.0.1") = (some ⟨"decode failure"⟩, "bad")) ∧
    (UnmarshalEntry blang sampleUnmarshal [(">=0.0.1 <0.0.2", FBad)]
        (.Rekord (some (sampleRekord "0.0.1")))).outcome =
      .returned none (some ⟨"decode failure"⟩) :=
  ⟨⟨rfl, rfl, rfl⟩,
    C8_Unmarshal_error_returned_unchanged blang sampleUnmarshal [(">=0.0.1 <0.0.2", FBad)]
      (sampleRekord "0.0.1") (fun _ => some "bad") "bad" "bad" ⟨"decode failure"⟩
      rfl rfl rfl rfl⟩

/-! ## C9 -/

/-- C9: `UnmarshalEntry` returns the non-nil entry `e` with a nil error if and
only if the proposed entry is a Rekord, `Get` finds a factory for its declared
version, the factory yields a non-nil object, and `Unmarshal` of the entry on that
object returns no error and leaves the object as `e`. -/
theorem C9_success_iff {E P : Type} (L : SemverLib)
    (unmarshal : E → Rekord P → Option GoError × E)
    (order : List (String × VersionFactory E)) (pe : ProposedEntry P) (e : E) :
    (UnmarshalEntry L unmarshal order pe).outcome = .returned (some e) none ↔
      ∃ (r : Rekord P) (genFn : Unit → Option E) (obj : E),
        pe = .Rekord (some r) ∧
        (Get L order (StringValue r.APIVersion)).found = true ∧
        (Get L order (StringValue r.APIVersion)).fn = some genFn ∧
        genFn () = some obj ∧
        unmarshal obj r = (none, e) := by
  constructor
  · intro h
    match pe with
    | .other kind => simp [UnmarshalEntry] at h
    | .Rekord none => simp [UnmarshalEntry] at h
    | .Rekord (some r) =>
      unfold UnmarshalEntry at h
      simp only at h
      cases hfound : (Get L order (StringValue r.APIVersion)).found with
      | false =>
        cases hpan : (Get L order (StringValue r.APIVersion)).panicked <;>
          simp [hfound, hpan] at h
      | true =>
        simp only [hfound, Get_found_not_panicked L order _ hfound, if_true,
          Bool.false_eq_true, if_false] at h
        cases hfn : (Get L order (StringValue r.APIVersion)).fn with
        | none => simp [hfn] at h
        | some genFn =>
          simp only [hfn] at h
          cases hobj : genFn () with
          | none => simp [hobj] at h
          | some obj =>
            simp only [hobj] at h
            rcases hum : unmarshal obj r with ⟨err, obj'⟩
            cases err with
            | some err => simp [hum] at h
            | none =>
              simp only [hum, Outcome.returned.injEq, Option.some.injEq, and_true] at h
              exact ⟨r, genFn, obj, rfl, hfound, hfn, hobj, by rw [hum, h]⟩
  · rintro ⟨r, genFn, obj, rfl, hfound, hfn, hobj, hum⟩
    simp [UnmarshalEntry, hfound, Get_found_not_panicked L order _ hfound, hfn, hobj, hum]

/-! ## C10 -/

theorem infix_append_sep (sub x y : List Char) (q : Char) (hq : q ∉ sub) :
    sub <:+: x ++ q :: y ↔ sub <:+: x ∨ sub <:+: y := by
  constructor
  · rintro ⟨s, t, h⟩
    rcases List.append_eq_append_iff.1 h with ⟨a, hx, _⟩ | ⟨c, hs, hy⟩
    · exact Or.inl ⟨s, a, hx.symm⟩
    · cases c with
      | nil => exact Or.inl ⟨s, [], by simpa using hs⟩
      | cons c0 c1 =>
        simp only [List.cons_append, List.cons.injEq] at hy
        obtain ⟨hc0, hy⟩ := hy
        subst hc0
        rcases List.append_eq_append_iff.1 hs with ⟨a, _, hsub⟩ | ⟨d, _, hd⟩
        · exact absurd (by rw [hsub]; simp) hq
        · cases d with
          | nil => exact absurd (by rw [← List.nil_append sub, ← hd]; simp) hq
          | cons d0 d1 =>
            simp only [List.cons_append, List.cons.injEq] at hd
            right
            exact ⟨d1, t, by rw [hy, hd.2]⟩
  · rintro (⟨s, t, h⟩ | ⟨s, t, h⟩)
    · exact ⟨s, t ++ q :: y, by simp [← h]⟩
    · exact ⟨x ++ q :: s, t, by simp [← h]⟩

theorem errNotFound_data (version : String) :
    (errNotFound version).msg.data =
      "RekordType implementation for version ".data ++
        Char.ofNat 39 :: (version.data ++ Char.ofNat 39 :: " not found".data) := by
  have h1 : "RekordType implementation for version '".data =
      "RekordType implementation for version ".data ++ [Char.ofNat 39] := by decide
  have h2 : "' not found".data = Char.ofNat 39 :: " not found".data := by decide
  simp only [errNotFound, String.data_append, h1, h2, List.append_assoc, List.singleton_append]
  rfl

/-- C10, as stated, fails: with only `>=0.0.1 <0.0.2` registered, a Rekord entry
declaring `5.0.0` is not found, and the text of the returned error,
`RekordType implementation for version '5.0.0' not found`, does not contain the
kind `rekord`. -/
theorem C10_counterexample :
    (Get blang (setAll blang [(">=0.0.1 <0.0.2", F1)]).versionFactories "5.0.0").found
        = false ∧
    (Get blang (setAll blang [(">=0.0.1 <0.0.2", F1)]).versionFactories "5.0.0").panicked
        = false ∧
    (UnmarshalEntry blang sampleUnmarshal (setAll blang [(">=0.0.1 <0.0.2", F1)]).versionFactories
        (.Rekord (some (sampleRekord "5.0.0")))).outcome =
      .returned none (some ⟨"RekordType implementation for version '5.0.0' not found"⟩) ∧
    ¬ Includes "RekordType implementation for version '5.0.0' not found" KIND :=
  ⟨rfl, rfl, rfl, by decide⟩

/-- C10 (amended): for every Rekord entry whose declared version `v` is not found
by `Get`: when `Get` returned (with `found = false`), `UnmarshalEntry` returns a
nil entry and the error whose text is
`RekordType implementation for version '<v>' not found`: the text includes `v`
and names the handler as `RekordType`; the kind string `rekord` occurs in it only
when it occurs in `v` itself.  When `Get` ended by panic, so does
`UnmarshalEntry`, and no error is returned. -/
theorem C10_not_found_error_text {E P : Type} (L : SemverLib)
    (unmarshal : E → Rekord P → Option GoError × E)
    (order : List (String × VersionFactory E)) (r : Rekord P)
    (hfound : (Get L order (StringValue r.APIVersion)).found = false) :
    ((Get L order (StringValue r.APIVersion)).panicked = true →
      (UnmarshalEntry L unmarshal order (.Rekord (some r))).outcome = .panicked) ∧
    ((Get L order (StringValue r.APIVersion)).panicked = false →
      ∃ err : GoError,
        (UnmarshalEntry L unmarshal order (.Rekord (some r))).outcome =
          .returned none (some err) ∧
        err.msg = "RekordType implementation for version '" ++ StringValue r.APIVersion ++
          "' not found" ∧
        Includes err.msg (StringValue r.APIVersion) ∧
        Includes err.msg "RekordType" ∧
        (Includes err.msg KIND ↔ Includes (StringValue r.APIVersion) KIND)) := by
  refine ⟨fun hpan => by simp [UnmarshalEntry, hpan], fun hret => ?_⟩
  refine ⟨errNotFound (StringValue r.APIVersion), ?_, rfl, ?_, ?_, ?_⟩
  · simp [UnmarshalEntry, hfound, hret]
  · unfold Includes
    rw [errNotFound_data]
    exact ⟨"RekordType implementation for version ".data ++ [Char.ofNat 39],
      Char.ofNat 39 :: " not found".data, by simp⟩
  · unfold Includes
    rw [errNotFound_data]
    exact ⟨[], " implementation for version ".data ++
      Char.ofNat 39 :: ((StringValue r.APIVersion).data ++ Char.ofNat 39 :: " not found".data),
      by
        have h : "RekordType implementation for version ".data =
            "RekordType".data ++ " implementation for version ".data := by decide
        rw [h]
        simp⟩
  · unfold Includes
    rw [errNotFound_data]
    have hq : Char.ofNat 39 ∉ KIND.data := by decide
    have hpre : ¬ KIND.data <:+: "RekordType implementation for version ".data := by decide
    have hpost : ¬ KIND.data <:+: " not found".data := by decide
    rw [infix_append_sep _ _ _ _ hq, infix_append_sep _ _ _ _ hq]
    constructor
    · rintro (h | h | h)
      · exact absurd h hpre
      · exact h
      · exact absurd h hpost
    · intro h
      exact Or.inr (Or.inl h)

/-- C10 (amended) at a concrete input: version `5.0.0` against a table holding
`>=0.0.1 <0.0.2`. -/
theorem C10_not_found_error_text_witness :
    (Get blang [(">=0.0.1 <0.0.2", F1)]
        (StringValue (sampleRekord "5.0.0").APIVersion)).found = false ∧
    ∃ err : GoError,
      (UnmarshalEntry blang sampleUnmarshal [(">=0.0.1 <0.0.2", F1)]
        (.Rekord (some (sampleRekord "5.0.0")))).outcome = .returned none (some err) ∧
      err.msg = "RekordType implementation for version '5.0.0' not found" :=
  have ⟨err, h1, h2, _⟩ := (C10_not_found_error_text blang sampleUnmarshal
    [(">=0.0.1 <0.0.2", F1)] (sampleRekord "5.0.0") rfl).2 rfl
  ⟨rfl, err, h1, h2⟩

/-! ## C11 -/

theorem UnmarshalEntry_outcome_congr {E P : Type} (L : SemverLib)
    (unmarshal : E → Rekord P → Option GoError × E)
    (order1 order2 : List (String × VersionFactory E)) (r : Rekord P)
    (hpan : (Get L order1 (StringValue r.APIVersion)).panicked =
      (Get L order2 (StringValue r.APIVersion)).panicked)
    (hfound : (Get L order1 (StringValue r.APIVersion)).found =
      (Get L order2 (StringValue r.APIVersion)).found)
    (hfn : (Get L order1 (StringValue r.APIVersion)).fn =
      (Get L order2 (StringValue r.APIVersion)).fn) :
    (UnmarshalEntry L unmarshal order1 (.Rekord (some r))).outcome =
      (UnmarshalEntry L unmarshal order2 (.Rekord (some r))).outcome := by
  unfold UnmarshalEntry
  simp only [hpan, hfound, hfn]
  cases (Get L order2 (StringValue r.APIVersion)).panicked with
  | true => rfl
  | false =>
    simp only [Bool.false_eq_true, if_false]
    cases (Get L order2 (StringValue r.APIVersion)).found with
    | false => rfl
    | true =>
      simp only [if_true]
      cases (Get L order2 (StringValue r.APIVersion)).fn with
      | none => rfl
      | some genFn =>
        simp only
        cases genFn () with
        | none => rfl
        | some obj =>
          simp only
          rcases unmarshal obj r with ⟨err, obj'⟩
          cases err <;> rfl

theorem Get_found_perm {E : Type} (L : SemverLib) (vfm : versionFactoryMap E)
    (order1 order2 : List (String × VersionFactory E)) (v : String)
    (hp : ∀ p ∈ vfm.versionFactories, rangeParses L p.1 = true)
    (hnp : ∀ p ∈ vfm.versionFactories, rangePanics L p.1 v = false)
    (h1 : IterationOf vfm order1) (h2 : IterationOf vfm order2)
    (hfound : (Get L order1 v).found = true) : (Get L order2 v).found = true := by
  obtain ⟨_, k, hk, hin⟩ := Get_found_inRange L order1 v hfound
  exact Get_found_of_mem L order2 v (fun p h => hp p ((h2.mem_iff p).1 h))
    (fun p h => hnp p ((h2.mem_iff p).1 h))
    ⟨_, (h2.mem_iff _).2 ((h1.mem_iff _).1 hk), hin⟩

theorem Get_found_eq_of_perm {E : Type} (L : SemverLib) (vfm : versionFactoryMap E)
    (order1 order2 : List (String × VersionFactory E)) (v : String)
    (hp : ∀ p ∈ vfm.versionFactories, rangeParses L p.1 = true)
    (hnp : ∀ p ∈ vfm.versionFactories, rangePanics L p.1 v = false)
    (h1 : IterationOf vfm order1) (h2 : IterationOf vfm order2) :
    (Get L order1 v).found = (Get L order2 v).found := by
  cases hb : (Get L order2 v).found with
  | true => exact Get_found_perm L vfm order2 order1 v hp hnp h2 h1 hb
  | false =>
    cases ha : (Get L order1 v).found with
    | false => rfl
    | true =>
      have := Get_found_perm L vfm order1 order2 v hp hnp h1 h2 ha
      rw [hb] at this
      cases this

theorem Get_fn_eq_of_perm {E : Type} (L : SemverLib) (vfm : versionFactoryMap E)
    (order1 order2 : List (String × VersionFactory E)) (v : String)
    (hw : WellFormed vfm) (hp : ∀ p ∈ vfm.versionFactories, rangeParses L p.1 = true)
    (hnp : ∀ p ∈ vfm.versionFactories, rangePanics L p.1 v = false)
    (h1 : IterationOf vfm order1) (h2 : IterationOf vfm order2)
    (hu : AtMostOneContains L vfm v) :
    (Get L order1 v).fn = (Get L order2 v).fn := by
  have hfound := Get_found_eq_of_perm L vfm order1 order2 v hp hnp h1 h2
  cases hb : (Get L order2 v).found with
  | false =>
    rw [Get_fn_none L order2 v hb, Get_fn_none L order1 v (hfound.trans hb)]
  | true =>
    obtain ⟨_, k1, hk1, hin1⟩ := Get_found_inRange L order1 v (hfound.trans hb)
    obtain ⟨_, k2, hk2, hin2⟩ := Get_found_inRange L order2 v hb
    have hm1 := (h1.mem_iff _).1 hk1
    have hm2 := (h2.mem_iff _).1 hk2
    have hk : k1 = k2 := hu _ hm1 _ hm2 hin1 hin2
    have hl1 := mapLookup_of_mem k1 _ _ hw hm1
    have hl2 := mapLookup_of_mem k2 _ _ hw hm2
    rw [hk, hl2] at hl1
    exact (Option.some.inj hl1).symm

/-- C11, as stated, fails in two ways.  When several registered constraints
contain the version: on the table built by `Set(">=1.0.0 <2.0.0", F1)` and
`Set("1.0.0", F2)`, one call of `Get("1.0.0")` that visits the range first selects
`F1` and another call on the same table that visits `1.0.0` first selects `F2`;
the two calls of `UnmarshalEntry` return objects built by different factories.
When a registered range panics on the version: on the table built by
`Set(">=1.0.0 || || <0.5.0", F1)` and `Set("0.7.0", F2)`, where only `0.7.0`
contains the version `0.7.0`, the call that visits `0.7.0` first returns `F2` and
the call that visits the other constraint first panics. -/
theorem C11_counterexample :
    (IterationOf (setAll blang overlapping) overlapping ∧
      IterationOf (setAll blang overlapping) overlapping.reverse ∧
      (Get blang overlapping "1.0.0").fn = F1 ∧
      (Get blang overlapping.reverse "1.0.0").fn = F2 ∧
      (Get blang overlapping "1.0.0").fn ≠ (Get blang overlapping.reverse "1.0.0").fn ∧
      (UnmarshalEntry blang sampleUnmarshal overlapping
          (.Rekord (some (sampleRekord "1.0.0")))).outcome =
        .returned (some "F1:1.0.0") none ∧
      (UnmarshalEntry blang sampleUnmarshal overlapping.reverse
          (.Rekord (some (sampleRekord "1.0.0")))).outcome =
        .returned (some "F2:1.0.0") none) ∧
    (IterationOf (setAll blang panicking) panicking ∧
      IterationOf (setAll blang panicking) panicking.reverse ∧
      AtMostOneContains blang (setAll blang panicking) "0.7.0" ∧
      (Get blang panicking.reverse "0.7.0").found = true ∧
      (Get blang panicking "0.7.0").panicked = true ∧
      (UnmarshalEntry blang sampleUnmarshal panicking.reverse
          (.Rekord (some (sampleRekord "0.7.0")))).outcome =
        .returned (some "F2:0.7.0") none ∧
      (UnmarshalEntry blang sampleUnmarshal panicking
          (.Rekord (some (sampleRekord "0.7.0")))).outcome = .panicked) :=
  ⟨⟨List.Perm.refl _, List.reverse_perm overlapping, rfl, rfl, F1_ne_F2, rfl, rfl⟩,
    List.Perm.refl _, List.reverse_perm panicking,
    by unfold AtMostOneContains; decide, rfl, rfl, rfl, rfl⟩

/-- C11 (amended): on a resolver whose stored constraints all parse as ranges (as
in every state built by `Set`), for a version on which the range call of no
stored constraint panics, two calls of `Get`, whatever order each iteration
takes, both return, with the same `found` flag; when at most one stored
constraint contains the version they also return the same factory, and two calls
of `UnmarshalEntry` on the same proposed entry then have the same outcome. -/
theorem C11_repeatable_when_unambiguous {E P : Type} (L : SemverLib)
    (unmarshal : E → Rekord P → Option GoError × E) (vfm : versionFactoryMap E)
    (order1 order2 : List (String × VersionFactory E))
    (hw : WellFormed vfm) (hp : ∀ p ∈ vfm.versionFactories, rangeParses L p.1 = true)
    (h1 : IterationOf vfm order1) (h2 : IterationOf vfm order2) :
    (∀ v : String, (∀ p ∈ vfm.versionFactories, rangePanics L p.1 v = false) →
      (Get L order1 v).panicked = false ∧ (Get L order2 v).panicked = false ∧
      (Get L order1 v).found = (Get L order2 v).found ∧
      (AtMostOneContains L vfm v → (Get L order1 v).fn = (Get L order2 v).fn)) ∧
    (∀ pe : ProposedEntry P,
      (∀ r, pe = .Rekord (some r) →
        (∀ p ∈ vfm.versionFactories, rangePanics L p.1 (StringValue r.APIVersion) = false) ∧
        AtMostOneContains L vfm (StringValue r.APIVersion)) →
      (UnmarshalEntry L unmarshal order1 pe).outcome =
        (UnmarshalEntry L unmarshal order2 pe).outcome) := by
  have hpan : ∀ (order : List (String × VersionFactory E)) (v : String),
      IterationOf vfm order → (∀ p ∈ vfm.versionFactories, rangePanics L p.1 v = false) →
      (Get L order v).panicked = false :=
    fun order v ho hnp => Get_not_panicked L order v (fun p h => hnp p ((ho.mem_iff p).1 h))
  refine ⟨fun v hnp => ⟨hpan order1 v h1 hnp, hpan order2 v h2 hnp,
    Get_found_eq_of_perm L vfm order1 order2 v hp hnp h1 h2,
    Get_fn_eq_of_perm L vfm order1 order2 v hw hp hnp h1 h2⟩, ?_⟩
  intro pe hu
  match pe with
  | .other kind => rfl
  | .Rekord none => rfl
  | .Rekord (some r) =>
    obtain ⟨hnp, hone⟩ := hu r rfl
    exact UnmarshalEntry_outcome_congr L unmarshal order1 order2 r
      ((hpan order1 _ h1 hnp).trans (hpan order2 _ h2 hnp).symm)
      (Get_found_eq_of_perm L vfm order1 order2 _ hp hnp h1 h2)
      (Get_fn_eq_of_perm L vfm order1 order2 _ hw hp hnp h1 h2 hone)

/-- C11 (amended) at a concrete input: with two disjoint ranges registered, the
two iteration orders select the same factory for `0.0.1` and `UnmarshalEntry` has
the same outcome. -/
theorem C11_repeatable_when_unambiguous_witness :
    (WellFormed (setAll blang disjointRanges) ∧
      (∀ p ∈ (setAll blang disjointRanges).versionFactories,
        rangeParses blang p.1 = true) ∧
      IterationOf (setAll blang disjointRanges) disjointRanges ∧
      IterationOf (setAll blang disjointRanges) disjointRanges.reverse ∧
      (∀ p ∈ (setAll blang disjointRanges).versionFactories,
        rangePanics blang p.1 "0.0.1" = false) ∧
      AtMostOneContains blang (setAll blang disjointRanges) "0.0.1") ∧
    (Get blang disjointRanges "0.0.1").fn = (Get blang disjointRanges.reverse "0.0.1").fn ∧
    (UnmarshalEntry blang sampleUnmarshal disjointRanges
        (.Rekord (some (sampleRekord "0.0.1")))).outcome =
      (UnmarshalEntry blang sampleUnmarshal disjointRanges.reverse
        (.Rekord (some (sampleRekord "0.0.1")))).outcome :=
  have hinv := setAll_invariant blang disjointRanges
  have hu : AtMostOneContains blang (setAll blang disjointRanges) "0.0.1" := by
    unfold AtMostOneContains
    decide
  have hnp : ∀ p ∈ (setAll blang disjointRanges).versionFactories,
      rangePanics blang p.1 "0.0.1" = false := by decide
  have h := C11_repeatable_when_unambiguous blang sampleUnmarshal
    (setAll blang disjointRanges) disjointRanges disjointRanges.reverse hinv.1 hinv.2
    (List.Perm.refl _) (List.reverse_perm disjointRanges)
  ⟨⟨hinv.1, hinv.2, List.Perm.refl _, List.reverse_perm disjointRanges, hnp, hu⟩,
    (h.1 "0.0.1" hnp).2.2.2 hu,
    h.2 (.Rekord (some (sampleRekord "0.0.1")))
      (fun r hr => by cases hr; exact ⟨hnp, hu⟩)⟩

/-! ## C12 -/

theorem getLoopOn_eq {E : Type} (L : SemverLib) (sv : L.Version) (s : versionFactoryMap E) :
    ∀ order : List (String × VersionFactory E),
      getLoopOn L sv order s = (getLoop L sv order, s)
  | [] => rfl
  | (k, v) :: rest => by
    unfold getLoopOn getLoop
    cases hk : L.ParseRange k with
    | error err => rfl
    | ok r =>
      simp only
      cases hr : r sv with
      | none => rfl
      | some b =>
        cases b with
        | true => rfl
        | false => simp only [getLoopOn_eq L sv s rest]

theorem GetOn_eq {E : Type} (L : SemverLib)
    (iter : List (String × VersionFactory E) → List (String × VersionFactory E))
    (version : String) (s : versionFactoryMap E) :
    GetOn L iter version s = (Get L (iter s.versionFactories) version, s) := by
  unfold GetOn Get
  cases hv : L.Parse version with
  | error err => rfl
  | ok sv => exact getLoopOn_eq L sv s _

theorem UnmarshalEntryOn_fst {E P : Type} (L : SemverLib)
    (unmarshal : E → Rekord P → Option GoError × E) (callees : Callees E P)
    (iter : List (String × VersionFactory E) → List (String × VersionFactory E))
    (pe : ProposedEntry P) (s : versionFactoryMap E) :
    (UnmarshalEntryOn L unmarshal callees iter pe s).1 =
      UnmarshalEntry L unmarshal (iter s.versionFactories) pe := by
  match pe with
  | .other kind => rfl
  | .Rekord none => rfl
  | .Rekord (some r) =>
    unfold UnmarshalEntryOn UnmarshalEntry
    simp only [GetOn_eq]
    cases (Get L (iter s.versionFactories) (StringValue r.APIVersion)).panicked with
    | true => rfl
    | false =>
      simp only [Bool.false_eq_true, if_false]
      cases (Get L (iter s.versionFactories) (StringValue r.APIVersion)).found with
      | false => rfl
      | true =>
        simp only [if_true]
        cases (Get L (iter s.versionFactories) (StringValue r.APIVersion)).fn with
        | none => rfl
        | some genFn =>
          simp only
          cases genFn () with
          | none => rfl
          | some obj =>
            simp only
            rcases unmarshal obj r with ⟨err, obj'⟩
            cases err <;> rfl

theorem UnmarshalEntryOn_snd {E P : Type} (L : SemverLib)
    (unmarshal : E → Rekord P → Option GoError × E) (callees : Callees E P)
    (iter : List (String × VersionFactory E) → List (String × VersionFactory E))
    (pe : ProposedEntry P) (s : versionFactoryMap E) :
    (Event.factoryCall ∉ (UnmarshalEntryOn L unmarshal callees iter pe s).1.trace →
        (UnmarshalEntryOn L unmarshal callees iter pe s).2 = s) ∧
      ((∀ g m, callees.factoryLeaves g m = m) →
        (∀ e r m, callees.unmarshalLeaves e r m = m) →
        (UnmarshalEntryOn L unmarshal callees iter pe s).2 = s) := by
  match pe with
  | .other kind => exact ⟨fun _ => rfl, fun _ _ => rfl⟩
  | .Rekord none => exact ⟨fun _ => rfl, fun _ _ => rfl⟩
  | .Rekord (some r) =>
    unfold UnmarshalEntryOn
    simp only [GetOn_eq]
    cases (Get L (iter s.versionFactories) (StringValue r.APIVersion)).panicked with
    | true => exact ⟨fun _ => rfl, fun _ _ => rfl⟩
    | false =>
      simp only [Bool.false_eq_true, if_false]
      cases (Get L (iter s.versionFactories) (StringValue r.APIVersion)).found with
      | false => exact ⟨fun _ => rfl, fun _ _ => rfl⟩
      | true =>
        simp only [if_true]
        cases (Get L (iter s.versionFactories) (StringValue r.APIVersion)).fn with
        | none => exact ⟨fun _ => rfl, fun _ _ => rfl⟩
        | some genFn =>
          simp only
          cases genFn () with
          | none =>
            refine ⟨fun h => absurd ?_ h, fun hf _ => hf _ _⟩
            simp
          | some obj =>
            simp only
            rcases unmarshal obj r with ⟨err, obj'⟩
            cases err with
            | none =>
              refine ⟨fun h => absurd ?_ h, fun hf hu => ?_⟩
              · simp
              · simp only [hu, hf]
            | some e =>
              refine ⟨fun h => absurd ?_ h, fun hf hu => ?_⟩
              · simp
              · simp only [hu, hf]

/-- C12, as stated, fails for `UnmarshalEntry` when the code it calls registers a
version: with `>=0.0.1 <0.0.2` bound to `F1` and a factory that, when called,
calls `Set(">=1.0.0 <2.0.0", F2)`, `UnmarshalEntry` on a Rekord entry declaring
`0.0.1` returns the entry and leaves a table of two constraints where there was
one. -/
theorem C12_counterexample :
    (UnmarshalEntryOn blang sampleUnmarshal registeringCallees (fun l => l)
        (.Rekord (some (sampleRekord "0.0.1")))
        (setAll blang [(">=0.0.1 <0.0.2", F1)])).1.outcome =
      .returned (some "F1:0.0.1") none ∧
    (setAll blang [(">=0.0.1 <0.0.2", F1)]).versionFactories.map Prod.fst =
      [">=0.0.1 <0.0.2"] ∧
    (UnmarshalEntryOn blang sampleUnmarshal registeringCallees (fun l => l)
        (.Rekord (some (sampleRekord "0.0.1")))
        (setAll blang [(">=0.0.1 <0.0.2", F1)])).2.versionFactories.map Prod.fst =
      [">=0.0.1 <0.0.2", ">=1.0.0 <2.0.0"] :=
  ⟨rfl, rfl, rfl⟩

/-- C12 (amended): `Get` leaves the version resolver as it found it, for every
table, iteration order and version string, whichever way the call ends.
`UnmarshalEntry` itself writes nothing to the resolver: its run is the one of the
function without state, the table after the call equals the table before it on
every path on which no factory is called, and on the other paths it does so
whenever the factory called and the `Unmarshal` of the object built leave the
table unchanged. -/
theorem C12_Get_and_UnmarshalEntry_keep_table {E P : Type} (L : SemverLib)
    (unmarshal : E → Rekord P → Option GoError × E) (callees : Callees E P)
    (iter : List (String × VersionFactory E) → List (String × VersionFactory E))
    (version : String) (pe : ProposedEntry P) (s : versionFactoryMap E) :
    (GetOn L iter version s).2 = s ∧
      (GetOn L iter version s).1 = Get L (iter s.versionFactories) version ∧
      (UnmarshalEntryOn L unmarshal callees iter pe s).1 =
        UnmarshalEntry L unmarshal (iter s.versionFactories) pe ∧
      (Event.factoryCall ∉ (UnmarshalEntryOn L unmarshal callees iter pe s).1.trace →
        (UnmarshalEntryOn L unmarshal callees iter pe s).2 = s) ∧
      ((∀ g m, callees.factoryLeaves g m = m) →
        (∀ e r m, callees.unmarshalLeaves e r m = m) →
        (UnmarshalEntryOn L unmarshal callees iter pe s).2 = s) := by
  refine ⟨?_, ?_, UnmarshalEntryOn_fst L unmarshal callees iter pe s,
    UnmarshalEntryOn_snd L unmarshal callees iter pe s⟩
  · rw [GetOn_eq]
  · rw [GetOn_eq]

/-- C12 (amended) at concrete inputs: with callees that register nothing the table
is left as it was after a successful call; with the registering callees it is
left as it was when the version is not found, since no factory is called. -/
theorem C12_Get_and_UnmarshalEntry_keep_table_witness :
    ((∀ g m, (Callees.quiet String Unit).factoryLeaves g m = m) ∧
      (∀ e r m, (Callees.quiet String Unit).unmarshalLeaves e r m = m)) ∧
    (UnmarshalEntryOn blang sampleUnmarshal (Callees.quiet String Unit) (fun l => l)
        (.Rekord (some (sampleRekord "0.0.1")))
        (setAll blang [(">=0.0.1 <0.0.2", F1)])).2 =
      setAll blang [(">=0.0.1 <0.0.2", F1)] ∧
    (UnmarshalEntryOn blang sampleUnmarshal registeringCallees (fun l => l)
        (.Rekord (some (sampleRekord "5.0.0")))
        (setAll blang [(">=0.0.1 <0.0.2", F1)])).2 =
      setAll blang [(">=0.0.1 <0.0.2", F1)] :=
  ⟨⟨fun _ _ => rfl, fun _ _ _ => rfl⟩,
    (C12_Get_and_UnmarshalEntry_keep_table blang sampleUnmarshal (Callees.quiet String Unit)
      (fun l => l) "0.0.1" (.Rekord (some (sampleRekord "0.0.1")))
      (setAll blang [(">=0.0.1 <0.0.2", F1)])).2.2.2.2 (fun _ _ => rfl) (fun _ _ _ => rfl),
    (C12_Get_and_UnmarshalEntry_keep_table blang sampleUnmarshal registeringCallees
      (fun l => l) "5.0.0" (.Rekord (some (sampleRekord "5.0.0")))
      (setAll blang [(">=0.0.1 <0.0.2", F1)])).2.2.2.1 (by decide)⟩

/-! ## C14 -/

theorem getLoop_pre_panics {E : Type} (L : SemverLib) (sv : L.Version)
    (rest : List (String × VersionFactory E)) :
    ∀ pre : List (String × VersionFactory E),
      (∀ p ∈ pre, ∃ r, L.ParseRange p.1 = .ok r ∧ r sv ≠ some true) →
      (∃ p ∈ pre, ∃ r, L.ParseRange p.1 = .ok r ∧ r sv = none) →
      (getLoop L sv (pre ++ rest)).panicked = true ∧ (getLoop L sv (pre ++ rest)).found = false
  | [], _, h => by simp at h
  | (k0, v0) :: tail, hpre, h => by
    obtain ⟨r, hr, hne⟩ := hpre (k0, v0) (List.mem_cons_self _ _)
    have hr' : L.ParseRange k0 = .ok r := hr
    rw [List.cons_append]
    unfold getLoop
    simp only [hr']
    cases hsv : r sv with
    | none => simp
    | some b =>
      cases b with
      | true => exact absurd hsv hne
      | false =>
        simp only
        apply getLoop_pre_panics L sv rest tail
          (fun p hm => hpre p (List.mem_cons_of_mem _ hm))
        obtain ⟨p, hm, r', hk', hnone⟩ := h
        rcases List.mem_cons.1 hm with hpe | hm
        · subst hpe
          rw [hr'] at hk'
          cases hk'
          rw [hsv] at hnone
          cases hnone
        · exact ⟨p, hm, r', hk', hnone⟩

/-- C14: on every table, built by `Set` or not, and for every version `v` that
parses: when the iteration of `Get` visits constraints that parse and do not
contain `v` and then reaches a stored constraint `k` that does not parse as a
range (the range call of none of the constraints before it panics), `Get` returns
`(nil, false)`; the constraints visited are those before `k` and `k` itself, and
none of the remaining ones is examined, whatever they are.  When the range call
of a constraint before `k` panics, the iteration does not reach `k`: `Get`
panics. -/
theorem C14_unparsable_stored_constraint_aborts {E : Type} (L : SemverLib)
    (pre post : List (String × VersionFactory E)) (k : String) (f : VersionFactory E)
    (v : String)
    (hv : versionParses L v = true)
    (hk : rangeParses L k = false)
    (hpre : ∀ p ∈ pre, rangeParses L p.1 = true ∧ inRange L p.1 v = false) :
    ((∀ p ∈ pre, rangePanics L p.1 v = false) →
      ∃ err : GoError,
        Get L (pre ++ (k, f) :: post) v =
          ⟨none, false, pre.map (fun p => Event.parseRange p.1) ++
            [.parseRange k, .logError err], false⟩) ∧
    ((∃ p ∈ pre, rangePanics L p.1 v = true) →
      (Get L (pre ++ (k, f) :: post) v).panicked = true ∧
        (Get L (pre ++ (k, f) :: post) v).found = false) := by
  unfold versionParses at hv
  unfold rangeParses at hk
  cases hparse : L.Parse v with
  | error e => simp [hparse] at hv
  | ok sv =>
    cases hrange : L.ParseRange k with
    | ok r => simp [hrange] at hk
    | error err =>
      have hparsed : ∀ p ∈ pre, ∃ r, L.ParseRange p.1 = .ok r := by
        intro p hm
        have h1 := (hpre p hm).1
        unfold rangeParses at h1
        cases hp : L.ParseRange p.1 with
        | error e => simp [hp] at h1
        | ok r => exact ⟨r, rfl⟩
      constructor
      · intro hnp
        refine ⟨err, ?_⟩
        simp only [Get, hparse]
        apply getLoop_abort L sv k f post err hrange
        intro p hm
        obtain ⟨r, hp⟩ := hparsed p hm
        exact ⟨r, hp, range_returns_false L p.1 v sv r hparse hp (hpre p hm).2 (hnp p hm)⟩
      · rintro ⟨q, hq, hqp⟩
        simp only [Get, hparse]
        apply getLoop_pre_panics L sv ((k, f) :: post) pre
        · intro p hm
          obtain ⟨r, hp⟩ := hparsed p hm
          refine ⟨r, hp, fun htrue => ?_⟩
          have := (inRange_iff L p.1 v sv r hparse hp).1.2 htrue
          rw [(hpre p hm).2] at this
          cases this
        · obtain ⟨r, hp⟩ := hparsed q hq
          exact ⟨q, hq, r, hp, (inRange_iff L q.1 v sv r hparse hp).2.1 hqp⟩

/-- C14 at a concrete input: the iteration visits `>=2.0.0 <3.0.0`, then
`not a range`, and would visit `1.0.0` last; `Get("1.0.0")` returns `(nil, false)`
although the constraint `1.0.0` contains the version, and only the first two
constraints are examined. -/
theorem C14_unparsable_stored_constraint_aborts_witness :
    (versionParses blang "1.0.0" = true ∧ rangeParses blang "not a range" = false ∧
      (∀ p ∈ [(">=2.0.0 <3.0.0", FNil)],
        rangeParses blang p.1 = true ∧ inRange blang p.1 "1.0.0" = false) ∧
      (∀ p ∈ [(">=2.0.0 <3.0.0", FNil)], rangePanics blang p.1 "1.0.0" = false) ∧
      inRange blang "1.0.0" "1.0.0" = true) ∧
    (Get blang brokenTable "1.0.0").found = false ∧
    (Get blang brokenTable "1.0.0").panicked = false ∧
    (Get blang brokenTable "1.0.0").trace.length = 2 ∧
    ∃ err : GoError,
      Get blang ([(">=2.0.0 <3.0.0", FNil)] ++ ("not a range", F1) :: [("1.0.0", F2)])
          "1.0.0" =
        ⟨none, false, [(">=2.0.0 <3.0.0", FNil)].map (fun p => Event.parseRange p.1) ++
          [.parseRange "not a range", .logError err], false⟩ :=
  ⟨⟨by decide, by decide, by decide, by decide, by decide⟩, rfl, rfl, rfl,
    (C14_unparsable_stored_constraint_aborts blang [(">=2.0.0 <3.0.0", FNil)]
      [("1.0.0", F2)] "not a range" F1 "1.0.0" (by decide) (by decide) (by decide)).1
      (by decide)⟩

/-! ## C15 -/

/-- C15, as stated, fails in its last part when a stored range panics on the
version: the table built by `Set(">=1.0.0 || || <0.5.0", F1)` and
`Set("0.7.0", F2)` holds only keys that parse as ranges and the stored
constraint `0.7.0` contains the version `0.7.0`, but when the iteration visits
the other constraint first `Get("0.7.0")` does not return `found = true`: it
panics. -/
theorem C15_counterexample :
    IterationOf (setAll blang panicking) panicking ∧
    (∀ p ∈ (setAll blang panicking).versionFactories, rangeParses blang p.1 = true) ∧
    versionParses blang "0.7.0" = true ∧
    (∃ p ∈ (setAll blang panicking).versionFactories, inRange blang p.1 "0.7.0" = true) ∧
    (Get blang panicking "0.7.0").panicked = true ∧
    (Get blang panicking "0.7.0").found = false :=
  ⟨List.Perm.refl _, by decide, by decide, ⟨("0.7.0", F2), by decide, by decide⟩, rfl, rfl⟩

/-- C15 (amended): in every state reached from the empty table by a sequence of
`Set` calls, with valid or invalid constraints, every stored key parses as a
range (and the keys are distinct); so on such a state, for every iteration order,
`Get` on a version that parses never takes the range-parse error branch (it logs
no error), and it returns `found = true` whenever some stored constraint
contains the version and the range call of no stored constraint panics on it. -/
theorem C15_stored_constraints_parse {E : Type} (L : SemverLib)
    (calls order : List (String × VersionFactory E)) (v : String)
    (ho : IterationOf (setAll L calls) order) :
    (∀ p ∈ (setAll L calls).versionFactories, rangeParses L p.1 = true) ∧
      WellFormed (setAll L calls) ∧
      (versionParses L v = true → ∀ err, Event.logError err ∉ (Get L order v).trace) ∧
      ((∃ p ∈ (setAll L calls).versionFactories, inRange L p.1 v = true) →
        (∀ p ∈ (setAll L calls).versionFactories, rangePanics L p.1 v = false) →
        (Get L order v).panicked = false ∧ (Get L order v).found = true) := by
  obtain ⟨hw, hp⟩ := setAll_invariant L calls
  have hpo : ∀ p ∈ order, rangeParses L p.1 = true := fun p h => hp p ((ho.mem_iff p).1 h)
  refine ⟨hp, hw, ?_, ?_⟩
  · intro hv err
    unfold versionParses at hv
    unfold Get
    cases hparse : L.Parse v with
    | error e => simp [hparse] at hv
    | ok sv => exact getLoop_no_logError L sv order hpo err
  · rintro ⟨p, hm, hin⟩ hnp
    have hfound := Get_found_of_mem L order v hpo
      (fun q h => hnp q ((ho.mem_iff q).1 h)) ⟨p, (ho.mem_iff p).2 hm, hin⟩
    exact ⟨Get_found_not_panicked L order v hfound, hfound⟩

/-- C15 (amended) at a concrete input: after a valid, an invalid and another valid
`Set`, the table holds the two valid constraints and `Get("1.5.0")` finds a
factory. -/
theorem C15_stored_constraints_parse_witness :
    IterationOf (setAll blang [(">=0.0.1 <0.0.2", F1), ("not a range", FNil),
        (">=1.0.0 <2.0.0", F2)]) disjointRanges.reverse ∧
    ((setAll blang [(">=0.0.1 <0.0.2", F1), ("not a range", FNil),
        (">=1.0.0 <2.0.0", F2)]).versionFactories.map Prod.fst =
      [">=0.0.1 <0.0.2", ">=1.0.0 <2.0.0"]) ∧
    (∀ p ∈ (setAll blang [(">=0.0.1 <0.0.2", F1), ("not a range", FNil),
        (">=1.0.0 <2.0.0", F2)]).versionFactories, rangeParses blang p.1 = true) ∧
    (Get blang disjointRanges.reverse "1.5.0").found = true :=
  have ho : IterationOf (setAll blang [(">=0.0.1 <0.0.2", F1), ("not a range", FNil),
      (">=1.0.0 <2.0.0", F2)]) disjointRanges.reverse := List.reverse_perm disjointRanges
  have h := C15_stored_constraints_parse blang [(">=0.0.1 <0.0.2", F1),
    ("not a range", FNil), (">=1.0.0 <2.0.0", F2)] disjointRanges.reverse "1.5.0" ho
  ⟨ho, rfl, h.1,
    (h.2.2.2 ⟨(">=1.0.0 <2.0.0", F2), by decide, by decide⟩ (by decide)).2⟩

/-! ## C16 -/

theorem mapLookup_mapStore_self {E : Type} (k : String) (v : VersionFactory E) :
    ∀ l : List (String × VersionFactory E), mapLookup k (mapStore k v l) = some v
  | [] => by simp [mapStore, mapLookup]
  | (k0, v0) :: rest => by
    unfold mapStore
    by_cases hk : k0 = k
    · simp [hk, mapLookup]
    · simp [hk, mapLookup, mapLookup_mapStore_self k v rest]

theorem mapLookup_mapStore_ne {E : Type} (k k' : String) (v : VersionFactory E)
    (hne : k' ≠ k) :
    ∀ l : List (String × VersionFactory E),
      mapLookup k' (mapStore k v l) = mapLookup k' l
  | [] => by simp [mapStore, mapLookup, Ne.symm hne]
  | (k0, v0) :: rest => by
    unfold mapStore
    by_cases hk : k0 = k
    · subst hk
      simp [mapLookup, Ne.symm hne]
    · by_cases hk' : k0 = k'
      · subst hk'
        simp [hk, mapLookup]
      · simp [hk, hk', mapLookup, mapLookup_mapStore_ne k k' v hne rest]

theorem mapStore_key_present {E : Type} (k : String) (v : VersionFactory E) :
    ∀ l : List (String × VersionFactory E), k ∈ (mapStore k v l).map Prod.fst
  | [] => by simp [mapStore]
  | (k0, v0) :: rest => by
    unfold mapStore
    by_cases hk : k0 = k
    · simp [hk]
    · simp only [hk, if_false, List.map_cons, List.mem_cons]
      exact Or.inr (mapStore_key_present k v rest)

/-- C16: for every table `m` (a map: one value per key), every constraint string
`c` that parses as a range and every factory `f`, the table after `Set(c, f)` maps
`c` to `f`, maps every other constraint string to what `m` maps it to, and holds
`c` exactly once, also when `c` was already registered (the new factory replaces
the old one). -/
theorem C16_Set_stores_and_frames {E : Type} (L : SemverLib) (m : versionFactoryMap E)
    (c : String) (f : VersionFactory E)
    (hw : WellFormed m) (hc : rangeParses L c = true) :
    mapLookup c (Set L m c f).vfm.versionFactories = some f ∧
      (∀ c', c' ≠ c →
        mapLookup c' (Set L m c f).vfm.versionFactories = mapLookup c' m.versionFactories) ∧
      WellFormed (Set L m c f).vfm ∧
      ((Set L m c f).vfm.versionFactories.map Prod.fst).count c = 1 := by
  have hset : (Set L m c f).vfm = ⟨mapStore c f m.versionFactories⟩ := by
    unfold rangeParses at hc
    unfold Set
    cases hr : L.ParseRange c with
    | error err => simp [hr] at hc
    | ok r => rfl
  have hnd := (mapStore_keys_nodup c f m.versionFactories hw).1
  rw [hset]
  exact ⟨mapLookup_mapStore_self c f _, fun c' hne => mapLookup_mapStore_ne c c' f hne _,
    hnd, List.count_eq_one_of_mem hnd (mapStore_key_present c f _)⟩

/-- C16 at a concrete input: registering `>=0.0.1 <0.0.2` a second time, now with
`F2`, replaces `F1` and leaves the other registration and the number of entries
as they were. -/
theorem C16_Set_stores_and_frames_witness :
    (WellFormed (setAll blang disjointRanges) ∧ rangeParses blang ">=0.0.1 <0.0.2" = true) ∧
    mapLookup ">=0.0.1 <0.0.2" (setAll blang disjointRanges).versionFactories = some F1 ∧
    mapLookup ">=0.0.1 <0.0.2"
        (Set blang (setAll blang disjointRanges) ">=0.0.1 <0.0.2" F2).vfm.versionFactories
      = some F2 ∧
    mapLookup ">=1.0.0 <2.0.0"
        (Set blang (setAll blang disjointRanges) ">=0.0.1 <0.0.2" F2).vfm.versionFactories
      = some F2 ∧
    (Set blang (setAll blang disjointRanges) ">=0.0.1 <0.0.2" F2).vfm.versionFactories.length
      = 2 :=
  have hw := (setAll_invariant blang disjointRanges).1
  have h := C16_Set_stores_and_frames blang (setAll blang disjointRanges)
    ">=0.0.1 <0.0.2" F2 hw (by decide)
  ⟨⟨hw, by decide⟩, rfl, h.1, (h.2.1 ">=1.0.0 <2.0.0" (by decide)).trans rfl, rfl⟩

/-! ## C17 -/

/-- C17: for every iteration order of every table, with a semantic-version library
that rejects the empty string (as `blang/semver` does), a Rekord entry whose
`APIVersion` is nil is handled as declaring the version `""`: `UnmarshalEntry`
returns (it does not panic) a nil entry and the error
`RekordType implementation for version '' not found`; its only calls are
`Get("")`, which returns `(nil, false)` after the failed parse, and the logging of
that failure, so no factory is called. -/
theorem C17_nil_APIVersion_is_empty_version {E P : Type} (L : SemverLib)
    (unmarshal : E → Rekord P → Option GoError × E)
    (order : List (String × VersionFactory E)) (spec : P)
    (hempty : versionParses L "" = false) :
    StringValue (Rekord.mk none spec).APIVersion = "" ∧
      (Get L order "").fn = none ∧ (Get L order "").found = false ∧
      (Get L order "").panicked = false ∧
      (UnmarshalEntry L unmarshal order (.Rekord (some ⟨none, spec⟩))).outcome =
        .returned none (some ⟨"RekordType implementation for version '' not found"⟩) ∧
      (∃ err, (UnmarshalEntry L unmarshal order (.Rekord (some ⟨none, spec⟩))).trace =
        [.get "", .logError err]) ∧
      Event.factoryCall ∉
        (UnmarshalEntry L unmarshal order (.Rekord (some ⟨none, spec⟩))).trace := by
  unfold versionParses at hempty
  cases hparse : L.Parse "" with
  | ok sv => simp [hparse] at hempty
  | error err =>
    have hget : Get L order "" = ⟨none, false, [.logError err], false⟩ := by
      simp [Get, hparse]
    have hmsg : errNotFound "" =
        ⟨"RekordType implementation for version '' not found"⟩ := by decide
    simp [UnmarshalEntry, StringValue, hget, hmsg]

/-- C17 at a concrete input: the library instance rejects `""`, and the entry
without version is answered with the not-found error for the empty version. -/
theorem C17_nil_APIVersion_is_empty_version_witness :
    versionParses blang "" = false ∧
    (UnmarshalEntry blang sampleUnmarshal disjointRanges
        (.Rekord (some rekordNoVersion))).outcome =
      .returned none (some ⟨"RekordType implementation for version '' not found"⟩) ∧
    (UnmarshalEntry blang sampleUnmarshal disjointRanges
        (.Rekord (some rekordNoVersion))).trace =
      [.get "", .logError ⟨"Version string empty"⟩] :=
  ⟨by decide,
    (C17_nil_APIVersion_is_empty_version blang sampleUnmarshal disjointRanges ()
      (by decide)).2.2.2.2.1, rfl⟩

end rekord
